import Mathlib

/-!
# The ZeroMQ server driver of cocaine-core

A shallow embedding of `src/drivers/zeromq_server.cpp`: the reply path of
`zeromq_server_job_t` (`react`, `send`) and the inbound path of
`zeromq_server_t` (`event`, `process`), over an explicit model of the socket
the driver owns.  Stateful code is written in state-passing style; a call that
blocks on the socket has no result (`none`).
-/

namespace Cocaine

/-! ## Frames and the socket -/

/-- The bytes of one message part (`zmq::message_t`, `std::string`). -/
abbrev Frame := String

/-- Number of bytes of a frame, `message.size()`. -/
def Frame.size (f : Frame) : Nat := f.length

/-- The reply path of a request: `route_t`, a vector of identity strings. -/
abbrev route_t := List String

/-- One call of `socket().send(message, flags)` as the transport saw it: the
frame, whether `ZMQ_SNDMORE` was passed, and whether the call succeeded. -/
structure Write where
  frame : Frame
  sndmore : Bool
  ok : Bool
deriving DecidableEq, Repr

/-- Modelled from the spec: the socket wrapper `networking::socket_t`
(`cocaine/networking.hpp`) and the transport below it are not among the
sources.  Inbound data is the queue of pending frames in arrival order, each
with the transport's "more parts follow" mark (a multipart message is a run of
frames marked `true` closed by one marked `false`); `rcvmore` is that mark of
the frame received last.  `sendScript` lists the outcomes of the coming write
calls (success once the list is used up) and `writes` records every write call
made so far. -/
structure Socket where
  inbox : List (Frame × Bool)
  rcvmore : Bool
  sendScript : List Bool
  writes : List Write
  endpoint : String
  route : String
deriving DecidableEq, Repr

/-- Whether inbound data is waiting, `m_socket.pending()`. -/
def Socket.pending (s : Socket) : Bool := !s.inbox.isEmpty

/-- Whether the frame received last has parts after it, `m_socket.more()`. -/
def Socket.more (s : Socket) : Bool := s.rcvmore

/-- Receive of the next frame, `m_socket.recv(&message)`: a blocking read, so
there is no result while nothing is pending. -/
def Socket.recv (s : Socket) : Option (Frame × Socket) :=
  match s.inbox with
  | [] => none
  | (message, more) :: rest => some (message, { s with inbox := rest, rcvmore := more })

/-- One write call, `socket().send(message, flags)`: its outcome is the next
entry of the script, and the call is recorded whatever the outcome. -/
def Socket.send (s : Socket) (message : Frame) (sndmore : Bool) : Bool × Socket :=
  match s.sendScript with
  | [] => (true, { s with writes := s.writes ++ [⟨message, sndmore, true⟩] })
  | ok :: later =>
    (ok, { s with sendScript := later, writes := s.writes ++ [⟨message, sndmore, ok⟩] })

/-- The frames of one physical multipart message as they sit in the inbound
queue: every frame but the last carries the "more" mark. -/
def wire : List Frame → List (Frame × Bool)
  | [] => []
  | [f] => [(f, false)]
  | f :: g :: rest => (f, true) :: wire (g :: rest)

/-! ## The job: `zeromq_server_job_t` -/

/-- A job of the driver: the route captured by the constructor (`m_route`) and
the request message of the `job_t` base (`request()`). -/
structure zeromq_server_job_t where
  m_route : route_t
  request : Frame
deriving DecidableEq, Repr

/-- The identity loop of `send`: one write with `ZMQ_SNDMORE` per route entry,
in order, leaving at the first failed write. -/
def sendIdentity : route_t → Socket → Bool × Socket
  | [], s => (true, s)
  | id :: ids, s =>
    match s.send id true with
    | (false, s1) => (false, s1)
    | (true, s1) => sendIdentity ids s1

/-- The member `zeromq_server_job_t::send(chunk)`: the identities, the empty
delimiter (both with `ZMQ_SNDMORE`), then the chunk without the flag; `false`
as soon as a write fails.  The route is only read. -/
def zeromq_server_job_t.send (j : zeromq_server_job_t) (chunk : Frame) (s : Socket) :
    Bool × Socket :=
  match sendIdentity j.m_route s with
  | (false, s1) => (false, s1)
  | (true, s1) =>
    match s1.send "" true with
    | (false, s2) => (false, s2)
    | (true, s2) => s2.send chunk false

/-- The member `react(const events::chunk_t&)`: a `void` function, the result
of `send` is dropped. -/
def zeromq_server_job_t.react_chunk (j : zeromq_server_job_t) (message : Frame) (s : Socket) :
    Unit × Socket :=
  ((), (j.send message s).2)

/-- The part of `Json::Value` the driver builds: integers, strings and objects
(members by name). -/
inductive JsonValue where
  | int : Int → JsonValue
  | str : String → JsonValue
  | object : List (String × JsonValue) → JsonValue

/-- Member assignment `object[key] = value` on an association list: the
member is replaced when present and added otherwise. -/
def setMember (key : String) (value : JsonValue) :
    List (String × JsonValue) → List (String × JsonValue)
  | [] => [(key, value)]
  | (k, v) :: rest =>
    if k = key then (key, value) :: rest else (k, v) :: setMember key value rest

/-- Assignment `object[key] = value` of `Json::Value`. -/
def JsonValue.set (object : JsonValue) (key : String) (value : JsonValue) : JsonValue :=
  match object with
  | .object members => .object (setMember key value members)
  | _ => .object [(key, value)]

/-- The object `react(const events::error_t&)` serializes: an empty object
with `code` and `message` assigned. -/
def errorObject (code : Int) (message : String) : JsonValue :=
  ((JsonValue.object []).set "code" (.int code)).set "message" (.str message)

/-- The member `react(const events::error_t&)`: the object is written by
`Json::FastWriter().write` (the writer is a library, taken as `write`), copied
into a message and passed to `send`; a `void` function. -/
def zeromq_server_job_t.react_error (write : JsonValue → String) (j : zeromq_server_job_t)
    (code : Int) (message : String) (s : Socket) : Unit × Socket :=
  let response := write (errorObject code message)
  ((), (j.send response s).2)

/-! ## The driver: `zeromq_server_t` -/

/-- Largest `unsigned int`, the value a decrement of zero wraps to. -/
def UINT_MAX : Nat := 4294967295

/-- The driver: its socket, whether the readiness watcher `m_watcher` and the
idle watcher `m_processor` are started, the jobs handed to
`m_engine->enqueue` in call order, the lines written to `syslog`, and the two
names the log line carries. -/
structure zeromq_server_t where
  m_socket : Socket
  m_watcher : Bool
  m_processor : Bool
  enqueued : List zeromq_server_job_t
  syslog : List String
  engine_name : String
  m_method : String
deriving DecidableEq, Repr

/-- The line `process` logs for a request it rejects. -/
def zeromq_server_t.corrupted (d : zeromq_server_t) : String :=
  "driver [" ++ d.engine_name ++ ":" ++ d.m_method ++ "]: got a corrupted request - no route"

/-- The route loop of `process`, `while(route_part_counter--)`, from the
counter value tested by the loop condition.  A zero counter ends the loop and
the post-decrement wraps it to `UINT_MAX`; otherwise the counter drops by one,
a frame is received, an empty frame leaves the loop (`break`) and any other is
appended to the route.  The result is the counter, socket and route after the
loop. -/
def recvRoute : Nat → Socket → route_t → Option (Nat × Socket × route_t)
  | 0, s, route => some (UINT_MAX, s, route)
  | c + 1, s, route =>
    match s.recv with
    | none => none
    | some (message, s1) =>
      if message.size = 0 then some (c, s1, route)
      else recvRoute c s1 (route ++ [message])

/-- The job loop of `process`, `while(m_socket.more())`, by recursion on the
inbound queue: while the frame received last has parts after it, a job with
the route is made, the next frame is received into its request and the job is
enqueued. -/
def dispatchFrames (route : route_t) :
    List (Frame × Bool) → Bool → List zeromq_server_job_t →
      Option (List (Frame × Bool) × Bool × List zeromq_server_job_t)
  | inbox, false, jobs => some (inbox, false, jobs)
  | [], true, _ => none
  | (message, more) :: rest, true, jobs =>
    dispatchFrames route rest more (jobs ++ [⟨route, message⟩])

/-- The job loop on a socket: the socket and the engine queue after it. -/
def dispatch (route : route_t) (s : Socket) (jobs : List zeromq_server_job_t) :
    Option (Socket × List zeromq_server_job_t) :=
  match dispatchFrames route s.inbox s.rcvmore jobs with
  | none => none
  | some (inbox, more, jobs1) => some ({ s with inbox := inbox, rcvmore := more }, jobs1)

/-- The idle callback `zeromq_server_t::process`, with `MAX_ROUTE_PARTS` (a
constant of a header that is not among the sources) as a parameter. -/
def zeromq_server_t.process (MAX_ROUTE_PARTS : Nat) (d : zeromq_server_t) :
    Option zeromq_server_t :=
  if d.m_socket.pending then
    match recvRoute (MAX_ROUTE_PARTS % (UINT_MAX + 1)) d.m_socket [] with
    | none => none
    | some (route_part_counter, s, route) =>
      if route.isEmpty || route_part_counter == 0 then
        some { d with m_socket := s, syslog := d.syslog ++ [d.corrupted] }
      else
        match dispatch route s d.enqueued with
        | none => none
        | some (s1, jobs) => some { d with m_socket := s1, enqueued := jobs }
  else
    some { d with m_watcher := true, m_processor := false }

/-- The readiness callback `zeromq_server_t::event`. -/
def zeromq_server_t.event (d : zeromq_server_t) : zeromq_server_t :=
  if d.m_socket.pending then { d with m_watcher := false, m_processor := true } else d

/-! ## Helper values for the statements -/

/-- A socket with the given inbound queue and nothing else. -/
def socketWith (inbox : List (Frame × Bool)) : Socket :=
  { inbox := inbox, rcvmore := false, sendScript := [], writes := [],
    endpoint := "tcp://*:5555", route := "core/host/app/method" }

/-- A running driver whose socket holds the given inbound queue: the drain
watcher is started, nothing is enqueued or logged. -/
def driverWith (inbox : List (Frame × Bool)) : zeromq_server_t :=
  { m_socket := socketWith inbox, m_watcher := false, m_processor := true,
    enqueued := [], syslog := [], engine_name := "app", m_method := "method" }

/-- The frames a reply to route `R` with chunk `c` is made of, each with its
`ZMQ_SNDMORE` flag. -/
def framing (R : route_t) (c : Frame) : List (Frame × Bool) :=
  R.map (fun r => (r, true)) ++ [("", true), (c, false)]

/-- A write call of frame and flag `p` with outcome `ok`. -/
def attempt (ok : Bool) (p : Frame × Bool) : Write := ⟨p.1, p.2, ok⟩

/-- Sequential writes of a list of flagged frames, leaving at the first failed
write. -/
def sendAll : List (Frame × Bool) → Socket → Bool × Socket
  | [], s => (true, s)
  | p :: ps, s =>
    match s.send p.1 p.2 with
    | (false, s1) => (false, s1)
    | (true, s1) => sendAll ps s1

/-- Successive `react(chunk)` calls on one job, in call order. -/
def replyAll (j : zeromq_server_job_t) : List Frame → Socket → Socket
  | [], s => s
  | c :: cs, s => replyAll j cs (j.react_chunk c s).2

/-! ## Construction and introspection of the driver -/

/-- The values of `config_t::get().core` the constructor reads. -/
structure core_config where
  instance_name : String
  hostname : String

/-- What the transport does during one construction: the text of the
`zmq::error_t` thrown when the socket is made (if it is), the text of the one
thrown by `bind` for a given endpoint (if it is), and the outcomes of the write
calls to come on the new socket. -/
structure Transport where
  socket_error : Option String
  bind_error : String → Option String
  send_outcomes : List Bool

/-- The `std::runtime_error` that leaves a failed construction, with the state
of the two watchers at that moment. -/
structure construction_error where
  what : String
  m_watcher : Bool
  m_processor : Bool
deriving DecidableEq, Repr

/-- The call `args.get(key, fallback).asString()` on the members of the
object `args`; the members the constructor reads are strings. -/
def getString (key : String) (fallback : String) : List (String × String) → String
  | [] => fallback
  | (k, v) :: rest => if k = key then v else getString key fallback rest

/-- The constructor `zeromq_server_t::zeromq_server_t(engine, method, args)`.
The socket is made first, with the joined names as its identity; a
`zmq::error_t` from it or from `bind` is turned into a `runtime_error` by the
handler of the function try block, an empty endpoint throws one directly.
Both watchers are started by the last statements only. -/
def zeromq_server_t.create (core : core_config) (t : Transport) (engine_name method : String)
    (args : List (String × String)) : Except construction_error zeromq_server_t :=
  let m_watcher := false
  let m_processor := false
  match t.socket_error with
  | some e =>
    .error ⟨"network failure in '" ++ method ++ "' task - " ++ e, m_watcher, m_processor⟩
  | none =>
    let route := "/".intercalate [core.instance_name, core.hostname, engine_name, method]
    let endpoint := getString "endpoint" "" args
    if endpoint.length = 0 then
      .error ⟨"no endpoint has been specified for the '" ++ method ++ "' task",
        m_watcher, m_processor⟩
    else
      match t.bind_error endpoint with
      | some e =>
        .error ⟨"network failure in '" ++ method ++ "' task - " ++ e, m_watcher, m_processor⟩
      | none =>
        .ok { m_socket := { inbox := [], rcvmore := false, sendScript := t.send_outcomes,
                            writes := [], endpoint := endpoint, route := route },
              m_watcher := true, m_processor := true, enqueued := [], syslog := [],
              engine_name := engine_name, m_method := method }

/-- The member named `key` of an object, if it has one. -/
def JsonValue.member (v : JsonValue) (key : String) : Option JsonValue :=
  match v with
  | .object members => (members.find? (fun m => m.1 == key)).map Prod.snd
  | _ => none

/-- The member names of an object. -/
def JsonValue.names (v : JsonValue) : List String :=
  match v with
  | .object members => members.map Prod.fst
  | _ => []

/-- The member `zeromq_server_t::info() const`, with the result of `stats()`
(a member of the base class) as a parameter.  The driver is returned as it
was: the member is `const`. -/
def zeromq_server_t.info (stats : JsonValue) (d : zeromq_server_t) :
    JsonValue × zeromq_server_t :=
  let result := JsonValue.object []
  let result := result.set "statistics" stats
  let result := result.set "type" (.str "zeromq-server")
  let result := result.set "endpoint" (.str d.m_socket.endpoint)
  let result := result.set "route" (.str d.m_socket.route)
  (result, d)

/-! ## The callbacks as a step relation -/

/-- A number of successive activations of the drain callback. -/
def activations (N : Nat) : Nat → zeromq_server_t → Option zeromq_server_t
  | 0, d => some d
  | k + 1, d => (d.process N).bind (activations N k)

/-- One step of a constructed driver: the readiness callback runs while its
watcher is started, the drain callback runs while its watcher is started,
frames arrive on the socket, or a job replies through the socket. -/
inductive Step (N : Nat) : zeromq_server_t → zeromq_server_t → Prop
  | event (d : zeromq_server_t) : d.m_watcher = true → Step N d d.event
  | process (d d1 : zeromq_server_t) :
      d.m_processor = true → d.process N = some d1 → Step N d d1
  | arrive (d : zeromq_server_t) (frames : List (Frame × Bool)) :
      Step N d { d with m_socket := { d.m_socket with inbox := d.m_socket.inbox ++ frames } }
  | reply (d : zeromq_server_t) (j : zeromq_server_job_t) (chunk : Frame) :
      Step N d { d with m_socket := (j.send chunk d.m_socket).2 }

/-- The driver states reached from a successful construction. -/
inductive Reachable (N : Nat) : zeromq_server_t → Prop
  | create (core : core_config) (t : Transport) (engine_name method : String)
      (args : List (String × String)) (d : zeromq_server_t) :
      zeromq_server_t.create core t engine_name method args = .ok d → Reachable N d
  | step (d d1 : zeromq_server_t) : Reachable N d → Step N d d1 → Reachable N d1

/-! ## Envelopes on the wire -/

/-- A route and its payload frames. -/
structure Envelope where
  route : route_t
  payload : List Frame
deriving DecidableEq, Repr

/-- The physical message of an envelope: the route, one empty frame, the
payload. -/
def Envelope.frames (e : Envelope) : List Frame := e.route ++ "" :: e.payload

/-- The jobs of an envelope: one per payload frame, all with its route. -/
def Envelope.jobs (e : Envelope) : List zeromq_server_job_t :=
  e.payload.map (fun p => ⟨e.route, p⟩)

/-- An envelope the drain step accepts: between one and `N - 2` non-empty
identities and at least one payload frame. -/
abbrev Envelope.wellFormed (N : Nat) (e : Envelope) : Prop :=
  (∀ r ∈ e.route, r ≠ "") ∧ 1 ≤ e.route.length ∧ e.route.length + 2 ≤ N ∧ e.payload ≠ []

/-- The inbound queue that holds the messages of the given envelopes. -/
def pendingQueue (es : List Envelope) : List (Frame × Bool) :=
  (es.map (fun e => wire e.frames)).flatten

/-! ## The logging service interface (`cocaine/idl/logging.hpp`) -/

/-- Service tags; the header declares `log_tag`. -/
inductive Tag where
  | log_tag
deriving DecidableEq, Repr

/-- The types the messages of the logging service carry. -/
inductive ArgType where
  | priorities
  | string
deriving DecidableEq, Repr

/-- One message of a service: its `tag`, its `alias()`, its `tuple_type` when
it declares one, and the value type of its `drain_type` when it declares a
`stream_of` one. -/
structure Message where
  tag : Tag
  name : String
  tuple_type : Option (List ArgType)
  drain_type : Option ArgType
deriving DecidableEq, Repr

/-- The message `log::emit`. -/
def log.emit : Message :=
  { tag := .log_tag, name := "emit",
    tuple_type := some [.priorities, .string, .string], drain_type := none }

/-- The message `log::verbosity`. -/
def log.verbosity : Message :=
  { tag := .log_tag, name := "verbosity", tuple_type := none, drain_type := some .priorities }

/-- A protocol: `version` and `messages`. -/
structure Protocol where
  version : Int
  messages : List Message
deriving DecidableEq, Repr

/-- The specialization `protocol<log_tag>`. -/
def protocol : Tag → Protocol
  | .log_tag => { version := 1, messages := [log.emit, log.verbosity] }

/-! ## Lemmas on frames and the inbound queue -/

theorem Frame.size_eq_zero_iff (f : Frame) : f.size = 0 ↔ f = "" := by
  constructor
  · intro h
    cases f with
    | mk cs =>
      simp only [Frame.size, String.length, List.length_eq_zero] at h
      simp [h]
  · intro h
    subst h
    rfl

theorem wire_append (xs ys : List Frame) (hys : ys ≠ []) :
    wire (xs ++ ys) = xs.map (fun r => (r, true)) ++ wire ys := by
  induction xs with
  | nil => rfl
  | cons x xs ih =>
    cases hxy : xs ++ ys with
    | nil => simp [hys] at hxy
    | cons z zs =>
      rw [List.cons_append, hxy, wire, ← hxy, ih]
      rfl

/-- The job loop stated with the socket operations of the source: it runs
while `more()` holds, and each turn receives one frame. -/
theorem dispatch_unfold (route : route_t) (s : Socket) (jobs : List zeromq_server_job_t) :
    dispatch route s jobs =
      if s.more then
        match s.recv with
        | none => none
        | some (message, s1) => dispatch route s1 (jobs ++ [⟨route, message⟩])
      else some (s, jobs) := by
  obtain ⟨inbox, rcvmore, script, writes, ep, rt⟩ := s
  cases rcvmore with
  | false => cases inbox <;> simp [dispatch, dispatchFrames, Socket.more]
  | true =>
    cases inbox with
    | nil => simp [dispatch, dispatchFrames, Socket.more, Socket.recv]
    | cons p rest =>
      obtain ⟨message, more⟩ := p
      simp [dispatch, dispatchFrames, Socket.more, Socket.recv]

/-- The route loop finds the delimiter: `fs` non-empty frames, then an empty
frame, with the counter above the number of frames before the delimiter. -/
theorem recvRoute_delimiter (fs : List (Frame × Bool)) :
    ∀ (c : Nat) (s : Socket) (acc : route_t) (m : Bool) (rest : List (Frame × Bool)),
      (∀ p ∈ fs, p.1 ≠ "") → fs.length < c → s.inbox = fs ++ ("", m) :: rest →
      recvRoute c s acc =
        some (c - fs.length - 1, { s with inbox := rest, rcvmore := m },
          acc ++ fs.map Prod.fst) := by
  induction fs with
  | nil =>
    intro c s acc m rest _ hc hin
    cases c with
    | zero => simp at hc
    | succ c =>
      simp only [List.nil_append] at hin
      simp [recvRoute, Socket.recv, hin, Frame.size]
  | cons p fs ih =>
    intro c s acc m rest hne hc hin
    cases c with
    | zero => simp at hc
    | succ c =>
      obtain ⟨f, b⟩ := p
      have hf : f ≠ "" := hne (f, b) (List.mem_cons_self _ _)
      have hsz : ¬ f.size = 0 := fun h => hf ((Frame.size_eq_zero_iff f).1 h)
      simp only [List.cons_append] at hin
      simp only [recvRoute, Socket.recv, hin, hsz, if_false]
      rw [ih c _ (acc ++ [f]) m rest (fun q hq => hne q (List.mem_cons_of_mem _ hq))
        (by simpa using hc) rfl]
      simp

/-- The route loop runs out of counter: `c` non-empty frames and no empty one
among them.  The counter ends at `UINT_MAX`. -/
theorem recvRoute_exhausted (fs : List (Frame × Bool)) :
    ∀ (c : Nat) (s : Socket) (acc : route_t) (rest : List (Frame × Bool)),
      (∀ p ∈ fs, p.1 ≠ "") → fs.length = c → s.inbox = fs ++ rest →
      recvRoute c s acc =
        some (UINT_MAX,
          { s with inbox := rest, rcvmore := (fs.getLast?.map Prod.snd).getD s.rcvmore },
          acc ++ fs.map Prod.fst) := by
  induction fs with
  | nil =>
    intro c s acc rest _ hc hin
    subst hc
    simp only [List.nil_append] at hin
    simp [recvRoute, ← hin]
  | cons p fs ih =>
    intro c s acc rest hne hc hin
    subst hc
    obtain ⟨f, b⟩ := p
    have hf : f ≠ "" := hne (f, b) (List.mem_cons_self _ _)
    have hsz : ¬ f.size = 0 := fun h => hf ((Frame.size_eq_zero_iff f).1 h)
    simp only [List.cons_append] at hin
    simp only [List.length_cons, recvRoute, Socket.recv, hin, hsz, if_false]
    rw [ih fs.length _ (acc ++ [f]) rest (fun q hq => hne q (List.mem_cons_of_mem _ hq))
      rfl rfl]
    cases fs with
    | nil => simp
    | cons q qs =>
      rw [List.getLast?_eq_getLast _ (List.cons_ne_nil _ _),
        List.getLast?_eq_getLast _ (List.cons_ne_nil _ _)]
      simp

/-- The job loop on the remaining frames `P` of the current message: one job
per frame, in order, all with the same route. -/
theorem dispatchFrames_wire (route : route_t) (P : List Frame) :
    ∀ (rest : List (Frame × Bool)) (jobs : List zeromq_server_job_t), P ≠ [] →
      dispatchFrames route (wire P ++ rest) true jobs =
        some (rest, false, jobs ++ P.map (fun p => ⟨route, p⟩)) := by
  induction P with
  | nil => intro _ _ h; exact absurd rfl h
  | cons p ps ih =>
    intro rest jobs _
    cases ps with
    | nil => cases rest <;> simp [wire, dispatchFrames]
    | cons q qs =>
      have hw : wire (p :: q :: qs) ++ rest = (p, true) :: (wire (q :: qs) ++ rest) := rfl
      rw [hw, dispatchFrames, ih rest _ (by simp)]
      simp

/-! ## Lemmas on the reply path -/

theorem sendIdentity_eq_sendAll (R : route_t) :
    ∀ s : Socket, sendIdentity R s = sendAll (R.map (fun r => (r, true))) s := by
  induction R with
  | nil => intro s; rfl
  | cons r R ih =>
    intro s
    simp only [sendIdentity, List.map_cons, sendAll]
    cases h : s.send r true with
    | mk ok s1 =>
      cases ok with
      | false => rfl
      | true => exact ih s1

theorem sendAll_append (xs ys : List (Frame × Bool)) :
    ∀ s : Socket, sendAll (xs ++ ys) s =
      match sendAll xs s with
      | (false, s1) => (false, s1)
      | (true, s1) => sendAll ys s1 := by
  induction xs with
  | nil => intro s; rfl
  | cons x xs ih =>
    intro s
    simp only [List.cons_append, sendAll]
    cases h : s.send x.1 x.2 with
    | mk ok s1 =>
      cases ok with
      | false => rfl
      | true => exact ih s1

/-- The member `send` is the sequential write of the reply framing. -/
theorem send_eq_sendAll (j : zeromq_server_job_t) (chunk : Frame) (s : Socket) :
    j.send chunk s = sendAll (framing j.m_route chunk) s := by
  rw [framing, sendAll_append, zeromq_server_job_t.send, sendIdentity_eq_sendAll]
  cases h : sendAll (j.m_route.map (fun r => (r, true))) s with
  | mk ok s1 =>
    cases ok with
    | false => rfl
    | true =>
      simp only [sendAll]
      cases h2 : s1.send "" true with
      | mk ok2 s2 =>
        cases ok2 with
        | false => rfl
        | true =>
          simp only
          cases h3 : s2.send chunk false with
          | mk ok3 s3 => cases ok3 <;> rfl

/-- Sequential writes when the script has no failure among the coming
outcomes: all frames are written, in order, and the result is `true`. -/
theorem sendAll_success (fs : List (Frame × Bool)) :
    ∀ s : Socket, (∀ b ∈ s.sendScript.take fs.length, b = true) →
      sendAll fs s =
        (true, { s with sendScript := s.sendScript.drop fs.length,
                        writes := s.writes ++ fs.map (attempt true) }) := by
  induction fs with
  | nil => intro s _; simp [sendAll]
  | cons p ps ih =>
    intro s h
    obtain ⟨inbox, rcvmore, script, writes, ep, rt⟩ := s
    cases script with
    | nil =>
      simp only [sendAll, Socket.send]
      rw [ih _ (by simp)]
      simp [attempt]
    | cons b bs =>
      have hb : b = true := h b (by simp)
      subst hb
      simp only [sendAll, Socket.send]
      rw [ih _ (fun b hb => h b (by simpa using Or.inr hb))]
      simp [attempt]

/-- Sequential writes when the write number `k` (from zero) is the first to
fail: the frames before it are written, the failing write is attempted, nothing
after it is, and the result is `false`. -/
theorem sendAll_failure (fs : List (Frame × Bool)) :
    ∀ (k : Nat) (later : List Bool) (s : Socket), k < fs.length →
      s.sendScript = List.replicate k true ++ false :: later →
      sendAll fs s =
        (false, { s with sendScript := later,
                         writes := s.writes ++ (fs.take k).map (attempt true)
                           ++ ((fs.drop k).take 1).map (attempt false) }) := by
  induction fs with
  | nil => intro k _ _ hk; simp at hk
  | cons p ps ih =>
    intro k later s hk hs
    obtain ⟨inbox, rcvmore, script, writes, ep, rt⟩ := s
    simp only at hs
    subst hs
    cases k with
    | zero => simp [sendAll, Socket.send, attempt]
    | succ k =>
      simp only [List.replicate_succ, List.cons_append, sendAll, Socket.send]
      rw [ih k later _ (by simpa using hk) rfl]
      simp [attempt]

/-! ## Lemmas on the drain step -/

theorem wire_map_fst (xs : List Frame) : (wire xs).map Prod.fst = xs := by
  induction xs with
  | nil => rfl
  | cons x xs ih =>
    cases xs with
    | nil => rfl
    | cons y ys => simp only [wire, List.map_cons, ih]

theorem wire_length (xs : List Frame) : (wire xs).length = xs.length := by
  rw [← List.length_map (wire xs) Prod.fst, wire_map_fst]

theorem wire_mem_fst (xs : List Frame) (p : Frame × Bool) (hp : p ∈ wire xs) : p.1 ∈ xs := by
  have h : p.1 ∈ (wire xs).map Prod.fst := List.mem_map_of_mem Prod.fst hp
  rwa [wire_map_fst] at h

theorem pending_of_inbox (s : Socket) (p : Frame × Bool) (rest : List (Frame × Bool))
    (h : s.inbox = p :: rest) : s.pending = true := by
  simp [Socket.pending, h]

/-- The route loop only receives: it makes no write and leaves the script. -/
theorem recvRoute_writes :
    ∀ (c : Nat) (s : Socket) (acc : route_t) (c1 : Nat) (s1 : Socket) (r : route_t),
      recvRoute c s acc = some (c1, s1, r) →
      s1.writes = s.writes ∧ s1.sendScript = s.sendScript := by
  intro c
  induction c with
  | zero =>
    intro s acc c1 s1 r h
    simp only [recvRoute, Option.some.injEq, Prod.mk.injEq] at h
    obtain ⟨_, hs, _⟩ := h
    subst hs
    exact ⟨rfl, rfl⟩
  | succ c ih =>
    intro s acc c1 s1 r h
    obtain ⟨inbox, rcvmore, script, writes, ep, rt⟩ := s
    cases inbox with
    | nil => simp [recvRoute, Socket.recv] at h
    | cons p rest =>
      obtain ⟨f, b⟩ := p
      simp only [recvRoute, Socket.recv] at h
      by_cases hf : f.size = 0
      · simp only [hf, if_true, Option.some.injEq, Prod.mk.injEq] at h
        obtain ⟨_, hs, _⟩ := h
        subst hs
        exact ⟨rfl, rfl⟩
      · simp only [hf, if_false] at h
        exact ih { inbox := rest, rcvmore := b, sendScript := script, writes := writes,
                   endpoint := ep, route := rt } _ _ _ _ h

/-- A message whose first frame is the delimiter is rejected, whatever the
value of `MAX_ROUTE_PARTS`: the line is logged and no job is enqueued. -/
theorem process_delimiter_first (N : Nat) (d : zeromq_server_t) (m : Bool)
    (rest : List (Frame × Bool)) (hin : d.m_socket.inbox = ("", m) :: rest) :
    ∃ s, d.process N = some { d with m_socket := s, syslog := d.syslog ++ [d.corrupted] } := by
  have hp : d.m_socket.pending = true := pending_of_inbox _ _ _ hin
  simp only [zeromq_server_t.process, hp, if_true]
  cases N % (UINT_MAX + 1) with
  | zero => exact ⟨d.m_socket, by simp [recvRoute]⟩
  | succ c =>
    exact ⟨{ d.m_socket with inbox := rest, rcvmore := m }, by
      simp [recvRoute, Socket.recv, hin, Frame.size]⟩

/-- A drain step that found data pending leaves both watchers as they are. -/
theorem process_pending_watchers (N : Nat) (d d1 : zeromq_server_t)
    (hp : d.m_socket.pending = true) (h : d.process N = some d1) :
    d1.m_watcher = d.m_watcher ∧ d1.m_processor = d.m_processor := by
  simp only [zeromq_server_t.process, hp, if_true] at h
  cases hr : recvRoute (N % (UINT_MAX + 1)) d.m_socket [] with
  | none => simp [hr] at h
  | some t =>
    obtain ⟨c, s, route⟩ := t
    simp only [hr] at h
    by_cases hbad : (route.isEmpty || c == 0) = true
    · simp only [hbad, if_true, Option.some.injEq] at h
      subst h
      exact ⟨rfl, rfl⟩
    · simp only [hbad] at h
      cases hd : dispatch route s d.enqueued with
      | none => simp [hd] at h
      | some u =>
        obtain ⟨s1, jobs⟩ := u
        simp only [hd, Bool.false_eq_true, if_false, Option.some.injEq] at h
        subst h
        exact ⟨rfl, rfl⟩

/-- The drain step on a request it accepts: once the route loop has ended
with a non-empty route and a non-zero counter, one job is enqueued for each
remaining frame `P` of the message. -/
theorem process_accepts (N : Nat) (d : zeromq_server_t) (c : Nat) (s : Socket) (R : route_t)
    (P : List Frame) (rest : List (Frame × Bool))
    (hpend : d.m_socket.pending = true)
    (hroute : recvRoute (N % (UINT_MAX + 1)) d.m_socket [] = some (c, s, R))
    (hvalid : (R.isEmpty || c == 0) = false)
    (hmore : s.rcvmore = true) (hin : s.inbox = wire P ++ rest) (hP : P ≠ []) :
    d.process N =
      some { d with m_socket := { s with inbox := rest, rcvmore := false },
                    enqueued := d.enqueued ++ P.map (fun p => ⟨R, p⟩) } := by
  simp only [zeromq_server_t.process, hpend, if_true, hroute, hvalid, dispatch, hmore, hin,
    dispatchFrames_wire R P rest d.enqueued hP, Bool.false_eq_true, if_false]

theorem mod_uint (N : Nat) (hN : N ≤ UINT_MAX) : N % (UINT_MAX + 1) = N :=
  Nat.mod_eq_of_lt (Nat.lt_succ_of_le hN)

/-- The drain step on `fs`, an empty frame marked "more", and the frames `P`:
when `fs` holds between one and `N - 2` non-empty frames the request is
accepted with the frames of `fs` as its route. -/
theorem process_delimited (N : Nat) (d : zeromq_server_t) (fs : List (Frame × Bool))
    (P : List Frame) (rest : List (Frame × Bool)) (hN : N ≤ UINT_MAX)
    (hfs : ∀ p ∈ fs, p.1 ≠ "") (h1 : 1 ≤ fs.length) (h2 : fs.length + 2 ≤ N) (hP : P ≠ [])
    (hin : d.m_socket.inbox = fs ++ ("", true) :: (wire P ++ rest)) :
    d.process N =
      some { d with m_socket := { d.m_socket with inbox := rest, rcvmore := false },
                    enqueued := d.enqueued ++ P.map (fun p => ⟨fs.map Prod.fst, p⟩) } := by
  have hpend : d.m_socket.pending = true := by
    cases fs with
    | nil => simp at h1
    | cons p ps => exact pending_of_inbox _ p _ hin
  have hr := recvRoute_delimiter fs N d.m_socket [] true (wire P ++ rest) hfs (by omega) hin
  rw [← mod_uint N hN] at hr
  have hvalid : ((fs.map Prod.fst).isEmpty || (N % (UINT_MAX + 1) - fs.length - 1) == 0)
      = false := by
    rw [mod_uint N hN]
    cases fs with
    | nil => simp at h1
    | cons p ps =>
      simp only [List.map_cons, List.isEmpty_cons, Bool.false_or, beq_eq_false_iff_ne, ne_eq]
      simp only [List.length_cons] at h2 ⊢
      omega
  rw [List.nil_append] at hr
  have h := process_accepts N d _
    { d.m_socket with inbox := wire P ++ rest, rcvmore := true } _ P rest hpend hr hvalid
    rfl rfl hP
  exact h

/-- C1 (amended).  Round trip of the reply framing through one drain step:
for a route `R` of between one and `MAX_ROUTE_PARTS - 2` non-empty identities
and payload frames `P` (at least one), the message `R ++ "" :: P` at the head
of the queue is not reported as corrupted and one job per payload frame is
enqueued, in order, each with route `R`; with the empty route the message is
reported as corrupted and nothing is enqueued. -/
theorem C1_round_trip (N : Nat) (R : route_t) (P : List Frame) (rest : List (Frame × Bool))
    (d : zeromq_server_t) (hN : N ≤ UINT_MAX) (hR : ∀ r ∈ R, r ≠ "") (hP : P ≠ [])
    (hin : d.m_socket.inbox = wire (R ++ "" :: P) ++ rest) :
    (1 ≤ R.length → R.length + 2 ≤ N →
      d.process N =
        some { d with m_socket := { d.m_socket with inbox := rest, rcvmore := false },
                      enqueued := d.enqueued ++ P.map (fun p => ⟨R, p⟩) }) ∧
    (R = [] →
      ∃ s, d.process N = some { d with m_socket := s, syslog := d.syslog ++ [d.corrupted] }) := by
  have hw : wire (R ++ "" :: P) = R.map (fun r => (r, true)) ++ ("", true) :: wire P := by
    rw [wire_append R ("" :: P) (by simp)]
    cases P with
    | nil => exact absurd rfl hP
    | cons p ps => rfl
  rw [hw, List.append_assoc, List.cons_append] at hin
  constructor
  · intro h1 h2
    have h := process_delimited N d (R.map (fun r => (r, true))) P rest hN
      (by simpa using hR) (by simpa using h1) (by simpa using h2) hP hin
    simpa [Function.comp_def] using h
  · intro hnil
    subst hnil
    exact process_delimiter_first N d true (wire P ++ rest) hin

/-- Witness of C1: the message `["workerA", "", "ping"]`. -/
theorem C1_round_trip_witness :
    (driverWith (wire ["workerA", "", "ping"])).process 8 =
      some { driverWith [] with enqueued := [⟨["workerA"], "ping"⟩] } :=
  (C1_round_trip 8 ["workerA"] ["ping"] [] (driverWith (wire ["workerA", "", "ping"]))
    (by decide) (by decide) (by decide) (by decide)).1 (by decide) (by decide)

/-- Counterexample to C1 as stated: the empty route is within
`0 ≤ |R| < MAX_ROUTE_PARTS`, yet `["", "ping"]` is reported as corrupted and
for no value of `MAX_ROUTE_PARTS` is a job with the empty route and request
`"ping"` enqueued. -/
theorem C1_empty_route_rejected :
    (driverWith (wire ([] ++ "" :: ["ping"]))).process 8 =
      some { driverWith [("ping", false)] with
        m_socket := { socketWith [("ping", false)] with rcvmore := true },
        syslog := ["driver [app:method]: got a corrupted request - no route"] } ∧
    ¬ ∃ N : Nat, ((driverWith (wire ([] ++ "" :: ["ping"]))).process N).map
        (fun d => d.enqueued) = some [⟨[], "ping"⟩] := by
  constructor
  · decide
  · rintro ⟨N, h⟩
    obtain ⟨s, hs⟩ := process_delimiter_first N (driverWith (wire ([] ++ "" :: ["ping"]))) true
      [("ping", false)] (by decide)
    rw [hs] at h
    simp [driverWith] at h

theorem wire_getLast_snd (xs : List Frame) (h : xs ≠ []) :
    (wire xs).getLast?.map Prod.snd = some false := by
  induction xs with
  | nil => exact absurd rfl h
  | cons x xs ih =>
    cases xs with
    | nil => rfl
    | cons y ys =>
      have hw : wire (x :: y :: ys) = (x, true) :: wire (y :: ys) := rfl
      have hne : wire (y :: ys) ≠ [] := by
        intro h0
        have := wire_length (y :: ys)
        rw [h0] at this
        simp at this
      obtain ⟨q, qs, hq⟩ := List.exists_cons_of_ne_nil hne
      rw [hw, hq, List.getLast?_cons_cons, ← hq]
      exact ih (by simp)

/-- The drain step when the route loop uses up its counter: the first `N`
frames are non-empty, `T` are the frames of the message after them.  The
request is accepted with the first `N` frames as its route. -/
theorem process_exhausted (N : Nat) (R : route_t) (T : List Frame)
    (rest : List (Frame × Bool)) (d : zeromq_server_t) (h0 : 0 < N) (hN : N ≤ UINT_MAX)
    (hR : ∀ r ∈ R, r ≠ "") (hlen : R.length = N)
    (hin : d.m_socket.inbox = wire (R ++ T) ++ rest) :
    d.process N =
      some { d with m_socket := { d.m_socket with inbox := rest, rcvmore := false },
                    enqueued := d.enqueued ++ T.map (fun p => ⟨R, p⟩) } := by
  have hRne : R ≠ [] := by
    intro h
    subst h
    simp at hlen
    omega
  have hpend : d.m_socket.pending = true := by
    cases hw : wire (R ++ T) with
    | nil =>
      have := wire_length (R ++ T)
      rw [hw] at this
      simp only [List.length_nil, List.length_append] at this
      have hl : R.length = 0 := by omega
      exact absurd (List.length_eq_zero.1 hl) hRne
    | cons p ps =>
      rw [hw] at hin
      exact pending_of_inbox _ p _ hin
  have hvalid : (R.isEmpty || UINT_MAX == 0) = false := by
    cases R with
    | nil => exact absurd rfl hRne
    | cons r rs => rfl
  by_cases hT : T = []
  · subst hT
    rw [List.append_nil] at hin
    have hr := recvRoute_exhausted (wire R) N d.m_socket [] rest
      (fun p hp => hR p.1 (wire_mem_fst R p hp)) (by rw [wire_length, hlen]) hin
    rw [wire_getLast_snd R hRne, wire_map_fst, List.nil_append, ← mod_uint N hN] at hr
    simp only [zeromq_server_t.process, hpend, if_true, hr, hvalid, dispatch, dispatchFrames,
      Option.getD_some, List.map_nil, List.append_nil, Bool.false_eq_true, if_false]
  · rw [wire_append R T hT, List.append_assoc] at hin
    have hr := recvRoute_exhausted (R.map (fun r => (r, true))) N d.m_socket []
      (wire T ++ rest) (by simpa using hR) (by simpa using hlen) hin
    have hlast : ((R.map (fun r => (r, true))).getLast?.map Prod.snd) = some true := by
      rw [List.getLast?_eq_getLast _ (by simpa using hRne)]
      simp
    rw [hlast, List.nil_append, ← mod_uint N hN] at hr
    have hm : (R.map (fun r => (r, true))).map Prod.fst = R := by
      simp [Function.comp_def]
    rw [hm] at hr
    have h := process_accepts N d _
      { d.m_socket with inbox := wire T ++ rest, rcvmore := true } R T rest hpend hr hvalid
      rfl rfl hT
    exact h

/-- C2 (the code at the failing input).  A message whose first
`MAX_ROUTE_PARTS` frames `R` are all non-empty is not reported as corrupted:
the log is left as it is and every frame `T` after them becomes the request of
a job whose route is the cut-off run `R`. -/
theorem C2_overlong_route_accepted (N : Nat) (R : route_t) (T : List Frame)
    (rest : List (Frame × Bool)) (d : zeromq_server_t) (h0 : 0 < N) (hN : N ≤ UINT_MAX)
    (hR : ∀ r ∈ R, r ≠ "") (hlen : R.length = N)
    (hin : d.m_socket.inbox = wire (R ++ T) ++ rest) :
    d.process N =
      some { d with m_socket := { d.m_socket with inbox := rest, rcvmore := false },
                    enqueued := d.enqueued ++ T.map (fun p => ⟨R, p⟩) } :=
  process_exhausted N R T rest d h0 hN hR hlen hin

/-- Witness of C2: with `MAX_ROUTE_PARTS = 3` the message `["a","b","c","x"]`
gives a job with route `["a","b","c"]` and request `"x"`, and no log line. -/
theorem C2_overlong_route_accepted_witness :
    (driverWith (wire ["a", "b", "c", "x"])).process 3 =
      some { driverWith [] with enqueued := [⟨["a", "b", "c"], "x"⟩] } :=
  C2_overlong_route_accepted 3 ["a", "b", "c"] ["x"] [] (driverWith (wire ["a", "b", "c", "x"]))
    (by decide) (by decide) (by decide) (by decide) (by decide)

/-- C3.  Pipelining: when the route loop of a drain step ends with a route
`R` that the step accepts (non-empty, counter not zero) and `P` (at least one
frame) are the frames of the message still to be received, the step makes
exactly one enqueue call per frame of `P`, in frame order, the job of each
holding that frame as its request and the same route `R`. -/
theorem C3_pipelining (N : Nat) (d : zeromq_server_t) (c : Nat) (s : Socket) (R : route_t)
    (P : List Frame) (rest : List (Frame × Bool))
    (hpend : d.m_socket.pending = true)
    (hroute : recvRoute (N % (UINT_MAX + 1)) d.m_socket [] = some (c, s, R))
    (hvalid : (R.isEmpty || c == 0) = false)
    (hmore : s.more = true) (hin : s.inbox = wire P ++ rest) (hP : P ≠ []) :
    d.process N =
      some { d with m_socket := { s with inbox := rest, rcvmore := false },
                    enqueued := d.enqueued ++ P.map (fun p => ⟨R, p⟩) } :=
  process_accepts N d c s R P rest hpend hroute hvalid hmore hin hP

/-- Witness of C3: `["peer", "", "x", "y", "z"]` gives three jobs, in order,
all with route `["peer"]`. -/
theorem C3_pipelining_witness :
    (driverWith (wire ["peer", "", "x", "y", "z"])).process 8 =
      some { driverWith [] with
        enqueued := [⟨["peer"], "x"⟩, ⟨["peer"], "y"⟩, ⟨["peer"], "z"⟩] } :=
  C3_pipelining 8 (driverWith (wire ["peer", "", "x", "y", "z"])) 6
    { socketWith (wire ["x", "y", "z"]) with rcvmore := true } ["peer"] ["x", "y", "z"] []
    (by decide) (by decide) (by decide) (by decide) (by decide) (by decide)

/-- C5 (the code at the failing input).  The route loop receives across a
message boundary: when the first pending message `R1` (non-empty frames, no
delimiter, fewer than `MAX_ROUTE_PARTS` frames) is followed by the message
`R2 ++ "" :: P`, one drain step consumes both messages and enqueues jobs whose
route `R1 ++ R2` and requests `P` come from two different messages. -/
theorem C5_route_spans_messages (N : Nat) (R1 R2 : route_t) (P : List Frame)
    (rest : List (Frame × Bool)) (d : zeromq_server_t) (hN : N ≤ UINT_MAX)
    (h1 : R1 ≠ []) (hR1 : ∀ r ∈ R1, r ≠ "") (hR2 : ∀ r ∈ R2, r ≠ "")
    (hlen : R1.length + R2.length + 2 ≤ N) (hP : P ≠ [])
    (hin : d.m_socket.inbox = wire R1 ++ wire (R2 ++ "" :: P) ++ rest) :
    d.process N =
      some { d with m_socket := { d.m_socket with inbox := rest, rcvmore := false },
                    enqueued := d.enqueued ++ P.map (fun p => ⟨R1 ++ R2, p⟩) } := by
  have hw : wire (R2 ++ "" :: P) = R2.map (fun r => (r, true)) ++ ("", true) :: wire P := by
    rw [wire_append R2 ("" :: P) (by simp)]
    cases P with
    | nil => exact absurd rfl hP
    | cons p ps => rfl
  have hin2 : d.m_socket.inbox =
      (wire R1 ++ R2.map (fun r => (r, true))) ++ ("", true) :: (wire P ++ rest) := by
    rw [hin, hw]
    simp
  have hfs : ∀ p ∈ wire R1 ++ R2.map (fun r => (r, true)), p.1 ≠ "" := by
    intro p hp
    rcases List.mem_append.1 hp with h | h
    · exact hR1 p.1 (wire_mem_fst R1 p h)
    · obtain ⟨r, hr, rfl⟩ := List.mem_map.1 h
      exact hR2 r hr
  have hl : (wire R1 ++ R2.map (fun r => (r, true))).length = R1.length + R2.length := by
    rw [List.length_append, wire_length, List.length_map]
  have hpos : 1 ≤ R1.length := by
    cases R1 with
    | nil => exact absurd rfl h1
    | cons r rs => simp
  have h := process_delimited N d (wire R1 ++ R2.map (fun r => (r, true))) P rest hN hfs
    (by omega) (by omega) hP hin2
  have hm : (wire R1 ++ R2.map (fun r => (r, true))).map Prod.fst = R1 ++ R2 := by
    rw [List.map_append, wire_map_fst]
    simp [Function.comp_def]
  rw [hm] at h
  exact h

/-- Witness of C5: the pending messages `["a"]` and `["b", "", "x"]` with
`MAX_ROUTE_PARTS = 4` give one job with route `["a", "b"]` and request `"x"`,
and nothing is left pending. -/
theorem C5_route_spans_messages_witness :
    (driverWith (wire ["a"] ++ wire ["b", "", "x"])).process 4 =
      some { driverWith [] with enqueued := [⟨["a", "b"], "x"⟩] } :=
  C5_route_spans_messages 4 ["a"] ["b"] ["x"] []
    (driverWith (wire ["a"] ++ wire ["b", "", "x"]))
    (by decide) (by decide) (by decide) (by decide) (by decide) (by decide) (by decide)

/-- C6 (the code at the failing input).  A rejected message is not
discarded: when the message `R ++ "" :: P` is reported as corrupted (the
delimiter comes first, or it is frame number `MAX_ROUTE_PARTS`), the step
returns at once and the frames `P` after the delimiter are still pending, the
socket standing in the middle of the message. -/
theorem C6_trailing_frames_left (N : Nat) (R : route_t) (P : List Frame)
    (rest : List (Frame × Bool)) (d : zeromq_server_t) (h0 : 0 < N) (hN : N ≤ UINT_MAX)
    (hR : ∀ r ∈ R, r ≠ "") (hcase : R = [] ∨ R.length + 1 = N) (hP : P ≠ [])
    (hin : d.m_socket.inbox = wire (R ++ "" :: P) ++ rest) :
    d.process N =
      some { d with
        m_socket := { d.m_socket with inbox := wire P ++ rest, rcvmore := true },
        syslog := d.syslog ++ [d.corrupted] } := by
  have hw : wire (R ++ "" :: P) = R.map (fun r => (r, true)) ++ ("", true) :: wire P := by
    rw [wire_append R ("" :: P) (by simp)]
    cases P with
    | nil => exact absurd rfl hP
    | cons p ps => rfl
  rw [hw, List.append_assoc, List.cons_append] at hin
  have hp : d.m_socket.pending = true := by
    cases R with
    | nil => exact pending_of_inbox _ _ _ hin
    | cons r rs => exact pending_of_inbox _ _ _ hin
  have hlt : (R.map (fun r => (r, true))).length < N := by
    rw [List.length_map]
    rcases hcase with h | h
    · subst h
      exact h0
    · omega
  have hr := recvRoute_delimiter (R.map (fun r => (r, true))) N d.m_socket [] true
    (wire P ++ rest) (by simpa using hR) hlt hin
  have hbad : (((R.map (fun r => (r, true))).map Prod.fst).isEmpty
      || (N - (R.map (fun r => (r, true))).length - 1) == 0) = true := by
    rcases hcase with h | h
    · subst h
      rfl
    · rw [List.length_map, Bool.or_eq_true]
      right
      rw [beq_iff_eq]
      omega
  rw [List.nil_append] at hr
  simp only [zeromq_server_t.process, hp, if_true, mod_uint N hN, hr, hbad]

/-- Witness of C6: with `MAX_ROUTE_PARTS = 3` the message
`["a", "b", "", "x", "", "y"]` is reported as corrupted and the frames
`"x", "", "y"` stay pending; the next step makes a job with route `["x"]` and
request `"y"` out of them. -/
theorem C6_trailing_frames_left_witness :
    (driverWith (wire ["a", "b", "", "x", "", "y"])).process 3 =
      some { driverWith (wire ["x", "", "y"]) with
        m_socket := { socketWith (wire ["x", "", "y"]) with rcvmore := true },
        syslog := ["driver [app:method]: got a corrupted request - no route"] } ∧
    ((driverWith (wire ["a", "b", "", "x", "", "y"])).process 3).bind
        (zeromq_server_t.process 3) =
      some { driverWith [] with
        enqueued := [⟨["x"], "y"⟩],
        syslog := ["driver [app:method]: got a corrupted request - no route"] } :=
  ⟨C6_trailing_frames_left 3 ["a", "b"] ["x", "", "y"] []
    (driverWith (wire ["a", "b", "", "x", "", "y"]))
    (by decide) (by decide) (by decide) (by decide) (by decide) (by decide), by decide⟩

/-- A rejected request is silent: in every drain step that logs the
corrupted-request line no job is enqueued, no write is made on the socket and
both watchers are left as they are. -/
theorem process_corrupted_silent (N : Nat) (d d1 : zeromq_server_t)
    (hstep : d.process N = some d1) (hlog : d1.syslog = d.syslog ++ [d.corrupted]) :
    d1.enqueued = d.enqueued ∧ d1.m_socket.writes = d.m_socket.writes ∧
    d1.m_watcher = d.m_watcher ∧ d1.m_processor = d.m_processor := by
  have hlen : d1.syslog ≠ d.syslog := by
    intro h
    have := congrArg List.length hlog
    rw [h] at this
    simp at this
  by_cases hp : d.m_socket.pending = true
  · have hw := process_pending_watchers N d d1 hp hstep
    refine ⟨?_, ?_, hw.1, hw.2⟩
    · simp only [zeromq_server_t.process, hp, if_true] at hstep
      cases hr : recvRoute (N % (UINT_MAX + 1)) d.m_socket [] with
      | none => simp [hr] at hstep
      | some t =>
        obtain ⟨c, s, route⟩ := t
        simp only [hr] at hstep
        by_cases hbad : (route.isEmpty || c == 0) = true
        · simp only [hbad, if_true, Option.some.injEq] at hstep
          subst hstep
          rfl
        · simp only [hbad] at hstep
          cases hd : dispatch route s d.enqueued with
          | none => simp [hd] at hstep
          | some u =>
            obtain ⟨s1, jobs⟩ := u
            simp only [hd, Bool.false_eq_true, if_false, Option.some.injEq] at hstep
            subst hstep
            exact absurd rfl hlen
    · simp only [zeromq_server_t.process, hp, if_true] at hstep
      cases hr : recvRoute (N % (UINT_MAX + 1)) d.m_socket [] with
      | none => simp [hr] at hstep
      | some t =>
        obtain ⟨c, s, route⟩ := t
        simp only [hr] at hstep
        by_cases hbad : (route.isEmpty || c == 0) = true
        · simp only [hbad, if_true, Option.some.injEq] at hstep
          subst hstep
          exact (recvRoute_writes _ _ _ _ _ _ hr).1
        · simp only [hbad] at hstep
          cases hd : dispatch route s d.enqueued with
          | none => simp [hd] at hstep
          | some u =>
            obtain ⟨s1, jobs⟩ := u
            simp only [hd, Bool.false_eq_true, if_false, Option.some.injEq] at hstep
            subst hstep
            exact absurd rfl hlen
  · simp only [zeromq_server_t.process, hp, Bool.false_eq_true, if_false,
      Option.some.injEq] at hstep
    subst hstep
    exact absurd rfl hlen

theorem framing_length (R : route_t) (c : Frame) : (framing R c).length = R.length + 2 := by
  simp [framing]

theorem framing_attempt (R : route_t) (c : Frame) :
    (framing R c).map (attempt true) =
      R.map (fun r => (⟨r, true, true⟩ : Write)) ++ [⟨"", true, true⟩, ⟨c, false, true⟩] := by
  simp [framing, attempt, Function.comp_def]

/-- C4.  Reply framing: when every write of the call succeeds, `send` (and so
`react(chunk)`) makes exactly `n + 2` writes, in this order: the route entries
in their order, one empty frame, then the chunk; all but the last with
`ZMQ_SNDMORE`, the last without it; and `send` returns `true`. -/
theorem C4_reply_framing (j : zeromq_server_job_t) (c : Frame) (s : Socket)
    (hok : ∀ b ∈ s.sendScript.take (j.m_route.length + 2), b = true) :
    j.send c s =
      (true, { s with
        sendScript := s.sendScript.drop (j.m_route.length + 2),
        writes := s.writes ++ j.m_route.map (fun r => (⟨r, true, true⟩ : Write))
          ++ [⟨"", true, true⟩, ⟨c, false, true⟩] }) ∧
    (j.react_chunk c s).2.writes =
      s.writes ++ j.m_route.map (fun r => (⟨r, true, true⟩ : Write))
        ++ [⟨"", true, true⟩, ⟨c, false, true⟩] := by
  have h := sendAll_success (framing j.m_route c) s (by rwa [framing_length])
  rw [← send_eq_sendAll, framing_length, framing_attempt, ← List.append_assoc] at h
  exact ⟨h, by rw [zeromq_server_job_t.react_chunk, h]⟩

/-- Witness of C4: route `["workerA"]`, chunk `"pong"`. -/
theorem C4_reply_framing_witness :
    ((⟨["workerA"], "ping"⟩ : zeromq_server_job_t).react_chunk "pong" (socketWith [])).2.writes =
      [⟨"workerA", true, true⟩, ⟨"", true, true⟩, ⟨"pong", false, true⟩] :=
  (C4_reply_framing ⟨["workerA"], "ping"⟩ "pong" (socketWith []) (by decide)).2

/-- C8 (amended).  Send failure policy of `send`: if write number `k` (from
zero) of the call is the first to fail, exactly the first `k + 1` frames of
the reply framing are attempted, the last of them failing, nothing after it is
written, and `send` returns `false`; if no write fails `send` returns `true`.
The callbacks `react(chunk)` and `react(error)` make the same writes as
`send` and return nothing. -/
theorem C8_send_failure (write : JsonValue → String) (j : zeromq_server_job_t) (c : Frame)
    (s : Socket) :
    (∀ (k : Nat) (later : List Bool), k < j.m_route.length + 2 →
      s.sendScript = List.replicate k true ++ false :: later →
      j.send c s =
        (false, { s with
          sendScript := later,
          writes := s.writes ++ ((framing j.m_route c).take k).map (attempt true)
            ++ (((framing j.m_route c).drop k).take 1).map (attempt false) })) ∧
    ((∀ b ∈ s.sendScript.take (j.m_route.length + 2), b = true) → (j.send c s).1 = true) ∧
    j.react_chunk c s = ((), (j.send c s).2) ∧
    (∀ (code : Int) (message : String),
      j.react_error write code message s =
        ((), (j.send (write (errorObject code message)) s).2)) := by
  refine ⟨?_, ?_, rfl, fun _ _ => rfl⟩
  · intro k later hk hs
    rw [send_eq_sendAll]
    exact sendAll_failure (framing j.m_route c) k later s (by rwa [framing_length]) hs
  · intro hok
    rw [send_eq_sendAll, sendAll_success (framing j.m_route c) s (by rwa [framing_length])]

/-- Witness of C8: route `["peer1"]`, chunk `"pong"`, the delimiter write
failing: the identity and the delimiter are attempted, the chunk is not. -/
theorem C8_send_failure_witness :
    (⟨["peer1"], "req"⟩ : zeromq_server_job_t).send "pong"
        { socketWith [] with sendScript := [true, false] } =
      (false, { socketWith [] with
        writes := [⟨"peer1", true, true⟩, ⟨"", true, false⟩] }) ∧
    ((⟨["peer1"], "req"⟩ : zeromq_server_job_t).send "pong" (socketWith [])).1 = true :=
  ⟨(C8_send_failure (fun _ => "") ⟨["peer1"], "req"⟩ "pong"
      { socketWith [] with sendScript := [true, false] }).1 1 [] (by decide) (by decide),
   (C8_send_failure (fun _ => "") ⟨["peer1"], "req"⟩ "pong" (socketWith [])).2.1 (by decide)⟩

/-- Counterexample to C8 as stated: `send` fails on the first write and
succeeds on a healthy socket, yet what `react(chunk)` and `react(error)` return
to their caller is the same in both runs. -/
theorem C8_react_returns_nothing :
    ((⟨["peer1"], "req"⟩ : zeromq_server_job_t).send "pong"
        { socketWith [] with sendScript := [false] }).1 = false ∧
    ((⟨["peer1"], "req"⟩ : zeromq_server_job_t).send "pong" (socketWith [])).1 = true ∧
    ((⟨["peer1"], "req"⟩ : zeromq_server_job_t).react_chunk "pong"
        { socketWith [] with sendScript := [false] }).1 =
      ((⟨["peer1"], "req"⟩ : zeromq_server_job_t).react_chunk "pong" (socketWith [])).1 ∧
    ((⟨["peer1"], "req"⟩ : zeromq_server_job_t).react_error (fun _ => "pong") 404 "not found"
        { socketWith [] with sendScript := [false] }).1 =
      ((⟨["peer1"], "req"⟩ : zeromq_server_job_t).react_error (fun _ => "pong") 404 "not found"
        (socketWith [])).1 := by
  refine ⟨by decide, by decide, rfl, rfl⟩

/-- C9.  Error payload shape: the object `react(error)` serializes has exactly
the members `code` and `message`; the call does what `react(chunk)` does for
the serialized object, and when every write succeeds it writes one multipart
message: the route entries, one empty frame, the serialized object last. -/
theorem C9_error_payload (write : JsonValue → String) (j : zeromq_server_job_t) (code : Int)
    (message : String) (s : Socket)
    (hok : ∀ b ∈ s.sendScript.take (j.m_route.length + 2), b = true) :
    errorObject code message = .object [("code", .int code), ("message", .str message)] ∧
    j.react_error write code message s =
      j.react_chunk (write (.object [("code", .int code), ("message", .str message)])) s ∧
    (j.react_error write code message s).2.writes =
      s.writes ++ j.m_route.map (fun r => (⟨r, true, true⟩ : Write))
        ++ [⟨"", true, true⟩,
            ⟨write (.object [("code", .int code), ("message", .str message)]), false, true⟩] := by
  have hobj : errorObject code message =
      .object [("code", .int code), ("message", .str message)] := by
    simp [errorObject, JsonValue.set, setMember]
  refine ⟨hobj, ?_, ?_⟩
  · simp only [zeromq_server_job_t.react_error, zeromq_server_job_t.react_chunk, hobj]
  · have h := sendAll_success (framing j.m_route (write (errorObject code message))) s
      (by rwa [framing_length])
    rw [← send_eq_sendAll, framing_length, framing_attempt, ← List.append_assoc] at h
    rw [hobj] at h
    simp only [zeromq_server_job_t.react_error, hobj, h]

/-- Witness of C9: `fail(404, "not found")` on route `["peer1"]`, with a
writer that yields the text `<404 not found>` for this object. -/
theorem C9_error_payload_witness :
    ((⟨["peer1"], "req"⟩ : zeromq_server_job_t).react_error
        (fun _ => "<404 not found>") 404 "not found" (socketWith [])).2.writes =
      [⟨"peer1", true, true⟩, ⟨"", true, true⟩, ⟨"<404 not found>", false, true⟩] :=
  (C9_error_payload (fun _ => "<404 not found>") ⟨["peer1"], "req"⟩ 404 "not found"
    (socketWith []) (by decide)).2.2

theorem mem_take_of_mem_take_drop (l : List Bool) (a m : Nat) (b : Bool)
    (h : b ∈ (l.drop a).take m) : b ∈ l.take (a + m) := by
  rw [List.take_add]
  exact List.mem_append_right _ h

/-- C10.  Streaming replies: successive `react(chunk)` calls on one job whose
writes all succeed write one complete multipart message per call, in call
order and without mixing their frames, the message for chunk `c` being the
route entries, one empty frame, then `c`. -/
theorem C10_streaming_replies (j : zeromq_server_job_t) (cs : List Frame) :
    ∀ s : Socket,
      (∀ b ∈ s.sendScript.take ((j.m_route.length + 2) * cs.length), b = true) →
      (replyAll j cs s).writes =
        s.writes ++ (cs.map (fun c =>
          j.m_route.map (fun r => (⟨r, true, true⟩ : Write))
            ++ [⟨"", true, true⟩, ⟨c, false, true⟩])).flatten := by
  induction cs with
  | nil => intro s _; simp [replyAll]
  | cons c cs ih =>
    intro s hok
    have hmul : (j.m_route.length + 2) * (c :: cs).length
        = (j.m_route.length + 2) + (j.m_route.length + 2) * cs.length := by
      rw [List.length_cons, Nat.mul_succ, Nat.add_comm]
    rw [hmul] at hok
    have h1 : ∀ b ∈ s.sendScript.take (j.m_route.length + 2), b = true := by
      intro b hb
      refine hok b ?_
      rw [List.take_add]
      exact List.mem_append_left _ hb
    have hsend := sendAll_success (framing j.m_route c) s (by rwa [framing_length])
    rw [← send_eq_sendAll, framing_length, framing_attempt] at hsend
    rw [replyAll, zeromq_server_job_t.react_chunk, hsend]
    rw [ih _ (fun b hb => hok b (mem_take_of_mem_take_drop _ _ _ _ hb))]
    simp

/-- Witness of C10: two replies on route `["workerA"]`. -/
theorem C10_streaming_replies_witness :
    (replyAll ⟨["workerA"], "ping"⟩ ["one", "two"] (socketWith [])).writes =
      [⟨"workerA", true, true⟩, ⟨"", true, true⟩, ⟨"one", false, true⟩,
       ⟨"workerA", true, true⟩, ⟨"", true, true⟩, ⟨"two", false, true⟩] :=
  C10_streaming_replies ⟨["workerA"], "ping"⟩ ["one", "two"] (socketWith []) (by decide)

/-! ## Successive activations of the drain callback -/

theorem pendingQueue_cons (e : Envelope) (es : List Envelope) :
    pendingQueue (e :: es) = wire e.frames ++ pendingQueue es := by
  simp [pendingQueue]

/-- The drain step on the message of a well-formed envelope at the head of
the queue: its jobs are enqueued and the rest of the queue is left. -/
theorem process_envelope (N : Nat) (e : Envelope) (rest : List (Frame × Bool))
    (d : zeromq_server_t) (hN : N ≤ UINT_MAX) (he : e.wellFormed N)
    (hin : d.m_socket.inbox = wire e.frames ++ rest) :
    d.process N =
      some { d with m_socket := { d.m_socket with inbox := rest, rcvmore := false },
                    enqueued := d.enqueued ++ e.jobs } := by
  obtain ⟨hR, h1, h2, hP⟩ := he
  have hw : wire e.frames =
      e.route.map (fun r => (r, true)) ++ ("", true) :: wire e.payload := by
    rw [Envelope.frames, wire_append e.route ("" :: e.payload) (by simp)]
    cases hp : e.payload with
    | nil => exact absurd hp hP
    | cons p ps => rfl
  rw [hw, List.append_assoc, List.cons_append] at hin
  have h := process_delimited N d (e.route.map (fun r => (r, true))) e.payload rest hN
    (by simpa using hR) (by simpa using h1) (by simpa using h2) hP hin
  simpa [Function.comp_def, Envelope.jobs] using h

/-- The drain step when nothing is pending: the readiness watcher is started
and the drain watcher stopped. -/
theorem process_idle (N : Nat) (d : zeromq_server_t) (hp : d.m_socket.pending = false) :
    d.process N = some { d with m_watcher := true, m_processor := false } := by
  simp [zeromq_server_t.process, hp]

theorem activations_succ (N : Nat) :
    ∀ (k : Nat) (d : zeromq_server_t),
      activations N (k + 1) d = (activations N k d).bind (zeromq_server_t.process N) := by
  intro k
  induction k with
  | zero =>
    intro d
    simp only [activations, Option.some_bind]
    cases d.process N <;> rfl
  | succ k ih =>
    intro d
    rw [activations]
    cases h : d.process N with
    | none => simp [activations, h]
    | some d1 =>
      rw [Option.some_bind, ih d1]
      conv_rhs => rw [activations, h, Option.some_bind]

/-- As many activations as there are well-formed messages pending dispatch
them all, one per activation, and leave the queue empty. -/
theorem activations_drain (N : Nat) (hN : N ≤ UINT_MAX) (es : List Envelope) :
    ∀ (e : Envelope) (d : zeromq_server_t), e.wellFormed N → (∀ x ∈ es, x.wellFormed N) →
      d.m_socket.inbox = pendingQueue (e :: es) →
      activations N (es.length + 1) d =
        some { d with
          m_socket := { d.m_socket with inbox := [], rcvmore := false },
          enqueued := d.enqueued ++ ((e :: es).map Envelope.jobs).flatten } := by
  induction es with
  | nil =>
    intro e d he _ hin
    rw [pendingQueue_cons] at hin
    have h := process_envelope N e (pendingQueue []) d hN he hin
    simp only [List.length_nil, activations, h, Option.some_bind]
    simp [pendingQueue]
  | cons x xs ih =>
    intro e d he hes hin
    rw [pendingQueue_cons] at hin
    have h := process_envelope N e (pendingQueue (x :: xs)) d hN he hin
    rw [List.length_cons, activations, h, Option.some_bind]
    rw [ih x _ (hes x (List.mem_cons_self _ _))
      (fun y hy => hes y (List.mem_cons_of_mem _ hy)) rfl]
    simp

/-- C11 (amended).  One activation of the drain callback that starts with
the well-formed messages `e :: es` pending dispatches the first of them only:
the others stay pending and both watchers are left as they are.  One
activation per message empties the queue, and it is the activation after
those, the one that finds nothing pending, that stops the drain watcher and
starts the readiness watcher. -/
theorem C11_one_message_per_activation (N : Nat) (e : Envelope) (es : List Envelope)
    (d : zeromq_server_t) (hN : N ≤ UINT_MAX) (he : e.wellFormed N)
    (hes : ∀ x ∈ es, x.wellFormed N) (hin : d.m_socket.inbox = pendingQueue (e :: es)) :
    d.process N =
      some { d with
        m_socket := { d.m_socket with inbox := pendingQueue es, rcvmore := false },
        enqueued := d.enqueued ++ e.jobs } ∧
    activations N (es.length + 1) d =
      some { d with
        m_socket := { d.m_socket with inbox := [], rcvmore := false },
        enqueued := d.enqueued ++ ((e :: es).map Envelope.jobs).flatten } ∧
    activations N (es.length + 2) d =
      some { d with
        m_socket := { d.m_socket with inbox := [], rcvmore := false },
        enqueued := d.enqueued ++ ((e :: es).map Envelope.jobs).flatten,
        m_watcher := true, m_processor := false } := by
  have h1 := process_envelope N e (pendingQueue es) d hN he
    (by rw [hin, pendingQueue_cons])
  have h2 := activations_drain N hN es e d he hes hin
  refine ⟨h1, h2, ?_⟩
  rw [activations_succ, h2, Option.some_bind, process_idle _ _ (by simp [Socket.pending])]

/-- Witness of C11: two messages pending; the first activation dispatches
`["a", "", "x"]` only, the second `["b", "", "y", "z"]`, the third swaps the
watchers. -/
theorem C11_one_message_per_activation_witness :
    (driverWith (pendingQueue [⟨["a"], ["x"]⟩, ⟨["b"], ["y", "z"]⟩])).process 8 =
      some { driverWith (pendingQueue [⟨["b"], ["y", "z"]⟩]) with
        enqueued := [⟨["a"], "x"⟩] } ∧
    activations 8 3 (driverWith (pendingQueue [⟨["a"], ["x"]⟩, ⟨["b"], ["y", "z"]⟩])) =
      some { driverWith [] with
        enqueued := [⟨["a"], "x"⟩, ⟨["b"], "y"⟩, ⟨["b"], "z"⟩],
        m_watcher := true, m_processor := false } :=
  have h := C11_one_message_per_activation 8 ⟨["a"], ["x"]⟩ [⟨["b"], ["y", "z"]⟩]
    (driverWith (pendingQueue [⟨["a"], ["x"]⟩, ⟨["b"], ["y", "z"]⟩]))
    (by decide) (by decide) (by decide) rfl
  ⟨h.1, h.2.2⟩

/-- Counterexample to C11 as stated: with the two well-formed messages
`["a", "", "x"]` and `["b", "", "y"]` pending, one activation enqueues the job
of the first only; the second message is still pending when it returns and the
drain watcher is still started. -/
theorem C11_single_activation_leaves_backlog :
    (driverWith (wire ["a", "", "x"] ++ wire ["b", "", "y"])).process 8 =
      some { driverWith (wire ["b", "", "y"]) with enqueued := [⟨["a"], "x"⟩] } ∧
    ({ driverWith (wire ["b", "", "y"]) with enqueued := [⟨["a"], "x"⟩] }
      : zeromq_server_t).m_socket.pending = true ∧
    ({ driverWith (wire ["b", "", "y"]) with enqueued := [⟨["a"], "x"⟩] }
      : zeromq_server_t).m_processor = true := by
  decide

/-! ## Construction, introspection and the logging interface -/

theorem getString_missing (key fallback : String) (args : List (String × String))
    (h : ∀ m ∈ args, m.1 ≠ key) : getString key fallback args = fallback := by
  induction args with
  | nil => rfl
  | cons m rest ih =>
    obtain ⟨k, v⟩ := m
    have hk : k ≠ key := h (k, v) (List.mem_cons_self _ _)
    simp only [getString, hk, if_false]
    exact ih (fun m hm => h m (List.mem_cons_of_mem _ hm))

/-- Construction fails when the endpoint read from the arguments is empty. -/
theorem create_empty_endpoint (core : core_config) (t : Transport)
    (engine_name method : String) (args : List (String × String))
    (h : getString "endpoint" "" args = "") :
    ∃ e, zeromq_server_t.create core t engine_name method args = .error e := by
  cases hs : t.socket_error with
  | some e =>
    simp only [zeromq_server_t.create, hs]
    exact ⟨_, rfl⟩
  | none =>
    simp only [zeromq_server_t.create, hs, h, String.length_empty, if_true]
    exact ⟨_, rfl⟩

/-- C12.  Fallible construction: the constructor fails when the arguments
have no `endpoint` member, when the endpoint is the empty string and when
`bind` fails; whenever it fails neither watcher has been started; and with the
socket made, a non-empty endpoint and a successful `bind` it succeeds, with
the socket bound to that endpoint and both watchers started. -/
theorem C12_fallible_construction (core : core_config) (t : Transport)
    (engine_name method : String) (args : List (String × String)) :
    ((∀ m ∈ args, m.1 ≠ "endpoint") →
      ∃ e, zeromq_server_t.create core t engine_name method args = .error e) ∧
    (getString "endpoint" "" args = "" →
      ∃ e, zeromq_server_t.create core t engine_name method args = .error e) ∧
    ((t.bind_error (getString "endpoint" "" args)).isSome = true →
      ∃ e, zeromq_server_t.create core t engine_name method args = .error e) ∧
    (∀ e, zeromq_server_t.create core t engine_name method args = .error e →
      e.m_watcher = false ∧ e.m_processor = false) ∧
    (t.socket_error = none → getString "endpoint" "" args ≠ "" →
      t.bind_error (getString "endpoint" "" args) = none →
      ∃ d, zeromq_server_t.create core t engine_name method args = .ok d ∧
        d.m_socket.endpoint = getString "endpoint" "" args ∧
        d.m_watcher = true ∧ d.m_processor = true) := by
  have hlen : ∀ ep : String, ep.length = 0 ↔ ep = "" := Frame.size_eq_zero_iff
  refine ⟨?_, ?_, ?_, ?_, ?_⟩
  · intro h
    exact create_empty_endpoint core t engine_name method args
      (getString_missing "endpoint" "" args h)
  · exact create_empty_endpoint core t engine_name method args
  · intro hb
    cases hs : t.socket_error with
    | some e =>
      simp only [zeromq_server_t.create, hs]
      exact ⟨_, rfl⟩
    | none =>
      by_cases hep : (getString "endpoint" "" args).length = 0
      · simp only [zeromq_server_t.create, hs, hep, if_true]
        exact ⟨_, rfl⟩
      · obtain ⟨b, hb1⟩ := Option.isSome_iff_exists.1 hb
        simp only [zeromq_server_t.create, hs, hep, if_false, hb1]
        exact ⟨_, rfl⟩
  · intro e he
    simp only [zeromq_server_t.create] at he
    cases hs : t.socket_error with
    | some x =>
      simp only [hs, Except.error.injEq] at he
      subst he
      exact ⟨rfl, rfl⟩
    | none =>
      simp only [hs] at he
      by_cases hep : (getString "endpoint" "" args).length = 0
      · simp only [hep, if_true, Except.error.injEq] at he
        subst he
        exact ⟨rfl, rfl⟩
      · simp only [hep, if_false] at he
        cases hb : t.bind_error (getString "endpoint" "" args) with
        | some x =>
          simp only [hb, Except.error.injEq] at he
          subst he
          exact ⟨rfl, rfl⟩
        | none => simp [hb] at he
  · intro hs hep hb
    have hep1 : ¬ (getString "endpoint" "" args).length = 0 := fun h => hep ((hlen _).1 h)
    simp only [zeromq_server_t.create, hs, hep1, if_false, hb]
    exact ⟨_, rfl, rfl, rfl, rfl⟩

/-- Witness of C12: no `endpoint` member fails with no watcher started; the
endpoint `tcp://*:5555` with a transport that raises nothing succeeds. -/
theorem C12_fallible_construction_witness :
    (∃ e, zeromq_server_t.create ⟨"core", "host"⟩ ⟨none, fun _ => none, []⟩ "app" "method" []
      = .error e) ∧
    (∃ d, zeromq_server_t.create ⟨"core", "host"⟩ ⟨none, fun _ => none, []⟩ "app" "method"
        [("endpoint", "tcp://*:5555")] = .ok d ∧
      d.m_socket.endpoint = getString "endpoint" "" [("endpoint", "tcp://*:5555")] ∧
      d.m_watcher = true ∧ d.m_processor = true) :=
  ⟨(C12_fallible_construction ⟨"core", "host"⟩ ⟨none, fun _ => none, []⟩ "app" "method" []).1
      (by decide),
   (C12_fallible_construction ⟨"core", "host"⟩ ⟨none, fun _ => none, []⟩ "app" "method"
      [("endpoint", "tcp://*:5555")]).2.2.2.2 rfl (by decide) rfl⟩

/-- C13.  The logging service catalog: `protocol<log_tag>` has version 1 and
exactly the two messages `emit` and `verbosity`, with distinct aliases;
`emit` declares the tuple `(priorities, string, string)` and no stream,
`verbosity` declares a stream of `priorities` and no tuple; both carry
`log_tag`. -/
theorem C13_logging_catalog :
    (protocol .log_tag).version = 1 ∧
    (protocol .log_tag).messages = [log.emit, log.verbosity] ∧
    (protocol .log_tag).messages.map Message.name = ["emit", "verbosity"] ∧
    ((protocol .log_tag).messages.map Message.name).Nodup ∧
    log.emit.tuple_type = some [.priorities, .string, .string] ∧
    log.emit.drain_type = none ∧
    log.verbosity.drain_type = some .priorities ∧
    log.verbosity.tuple_type = none ∧
    (∀ m ∈ (protocol .log_tag).messages, m.tag = .log_tag) := by
  refine ⟨rfl, rfl, rfl, by decide, rfl, rfl, rfl, rfl, by decide⟩

/-- C14 (amended).  The status snapshot: `info` returns an object with
exactly the four members `statistics`, `type`, `endpoint` and `route`, where
`statistics` is the result of `stats()`, `type` is the string
`zeromq-server`, `endpoint` is the endpoint of the socket and `route` is the
identity of the socket; the driver is left as it was. -/
theorem C14_status_snapshot (stats : JsonValue) (d : zeromq_server_t) :
    (d.info stats).1 =
      .object [("statistics", stats), ("type", .str "zeromq-server"),
               ("endpoint", .str d.m_socket.endpoint), ("route", .str d.m_socket.route)] ∧
    (d.info stats).1.names = ["statistics", "type", "endpoint", "route"] ∧
    (d.info stats).2 = d := by
  have h : (d.info stats).1 =
      .object [("statistics", stats), ("type", .str "zeromq-server"),
               ("endpoint", .str d.m_socket.endpoint), ("route", .str d.m_socket.route)] := by
    simp [zeromq_server_t.info, JsonValue.set, setMember]
  refine ⟨h, ?_, rfl⟩
  rw [h]
  rfl

/-- Counterexample to C14 as stated: the snapshot of a driver has the
member `type` equal to `zeromq-server`, not `transport`, and it has a member
`route` and no member `identity`. -/
theorem C14_type_is_zeromq_server :
    ((driverWith []).info (.object [])).1.member "type" = some (.str "zeromq-server") ∧
    ((driverWith []).info (.object [])).1.member "type" ≠ some (.str "transport") ∧
    ((driverWith []).info (.object [])).1.member "identity" = none ∧
    ((driverWith []).info (.object [])).1.member "route" =
      some (.str "core/host/app/method") := by
  refine ⟨rfl, ?_, rfl, rfl⟩
  have h : ((driverWith []).info (.object [])).1.member "type" = some (.str "zeromq-server") :=
    rfl
  rw [h]
  simp

/-! ## Routes at the edges of the route budget -/

/-- The drain step on a message `R ++ "" :: P` whose delimiter comes first or
is frame number `N`: the corrupted-request line is logged, nothing is enqueued
and the frames after the delimiter are left. -/
theorem process_delimiter_rejected (N : Nat) (R : route_t) (P : List Frame)
    (rest : List (Frame × Bool)) (d : zeromq_server_t) (h0 : 0 < N) (hN : N ≤ UINT_MAX)
    (hR : ∀ r ∈ R, r ≠ "") (hcase : R = [] ∨ R.length + 1 = N) (hP : P ≠ [])
    (hin : d.m_socket.inbox = wire (R ++ "" :: P) ++ rest) :
    d.process N =
      some { d with
        m_socket := { d.m_socket with inbox := wire P ++ rest, rcvmore := true },
        syslog := d.syslog ++ [d.corrupted] } := by
  have hw : wire (R ++ "" :: P) = R.map (fun r => (r, true)) ++ ("", true) :: wire P := by
    rw [wire_append R ("" :: P) (by simp)]
    cases P with
    | nil => exact absurd rfl hP
    | cons p ps => rfl
  rw [hw, List.append_assoc, List.cons_append] at hin
  have hp : d.m_socket.pending = true := by
    cases R with
    | nil => exact pending_of_inbox _ _ _ hin
    | cons r rs => exact pending_of_inbox _ _ _ hin
  have hlt : (R.map (fun r => (r, true))).length < N := by
    rw [List.length_map]
    rcases hcase with h | h
    · subst h
      exact h0
    · omega
  have hr := recvRoute_delimiter (R.map (fun r => (r, true))) N d.m_socket [] true
    (wire P ++ rest) (by simpa using hR) hlt hin
  have hbad : (((R.map (fun r => (r, true))).map Prod.fst).isEmpty
      || (N - (R.map (fun r => (r, true))).length - 1) == 0) = true := by
    rcases hcase with h | h
    · subst h
      rfl
    · rw [List.length_map, Bool.or_eq_true]
      right
      rw [beq_iff_eq]
      omega
  rw [List.nil_append] at hr
  simp only [zeromq_server_t.process, hp, if_true, mod_uint N hN, hr, hbad]

/-- C16 (the code at the failing input).  A route `R` of exactly
`MAX_ROUTE_PARTS - 1` non-empty identities is rejected: on the message
`R ++ ["", p]` the route loop leaves at the delimiter with the counter at
zero, so the corrupted-request line is logged, no job is enqueued and `p`
stays pending. -/
theorem C16_longest_route_rejected (N : Nat) (R : route_t) (p : Frame)
    (rest : List (Frame × Bool)) (d : zeromq_server_t) (hN : N ≤ UINT_MAX)
    (hR : ∀ r ∈ R, r ≠ "") (hlen : R.length + 1 = N)
    (hin : d.m_socket.inbox = wire (R ++ ["", p]) ++ rest) :
    d.process N =
      some { d with
        m_socket := { d.m_socket with inbox := (p, false) :: rest, rcvmore := true },
        syslog := d.syslog ++ [d.corrupted] } :=
  process_delimiter_rejected N R [p] rest d (by omega) hN hR (Or.inr hlen) (by simp) hin

/-- Witness of C16: with `MAX_ROUTE_PARTS = 3` the message
`["a", "b", "", "p"]` is reported as corrupted and nothing is enqueued. -/
theorem C16_longest_route_rejected_witness :
    (driverWith (wire ["a", "b", "", "p"])).process 3 =
      some { driverWith [("p", false)] with
        m_socket := { socketWith [("p", false)] with rcvmore := true },
        syslog := ["driver [app:method]: got a corrupted request - no route"] } :=
  C16_longest_route_rejected 3 ["a", "b"] "p" [] (driverWith (wire ["a", "b", "", "p"]))
    (by decide) (by decide) (by decide) (by decide)

/-- C17 (amended).  The empty route: a message `"" :: P` whose first frame is
the delimiter is not a request the driver accepts; for every value of
`MAX_ROUTE_PARTS` the drain step logs the corrupted-request line and enqueues
no job. -/
theorem C17_empty_route_rejected (N : Nat) (P : List Frame) (rest : List (Frame × Bool))
    (d : zeromq_server_t) (hP : P ≠ []) (hin : d.m_socket.inbox = wire ("" :: P) ++ rest) :
    ∃ s, d.process N = some { d with m_socket := s, syslog := d.syslog ++ [d.corrupted] } := by
  have hw : wire ("" :: P) = ("", true) :: wire P := by
    cases P with
    | nil => exact absurd rfl hP
    | cons p ps => rfl
  rw [hw, List.cons_append] at hin
  exact process_delimiter_first N d true (wire P ++ rest) hin

/-- Witness of C17: the message `["", "a", "b"]`. -/
theorem C17_empty_route_rejected_witness :
    ∃ s, (driverWith (wire ["", "a", "b"])).process 8 =
      some { driverWith (wire ["", "a", "b"]) with
        m_socket := s,
        syslog := ["driver [app:method]: got a corrupted request - no route"] } :=
  C17_empty_route_rejected 8 ["a", "b"] [] (driverWith (wire ["", "a", "b"]))
    (by decide) (by decide)

/-- Counterexample to C17 as stated: on `["", "a", "b"]` the drain step
logs the corrupted-request line and enqueues nothing, and for no value of
`MAX_ROUTE_PARTS` does it enqueue the two jobs with the empty route. -/
theorem C17_empty_route_no_jobs :
    (driverWith (wire ["", "a", "b"])).process 8 =
      some { driverWith (wire ["a", "b"]) with
        m_socket := { socketWith (wire ["a", "b"]) with rcvmore := true },
        syslog := ["driver [app:method]: got a corrupted request - no route"] } ∧
    ¬ ∃ N : Nat, ((driverWith (wire ["", "a", "b"])).process N).map
        (fun d => d.enqueued) = some [⟨[], "a"⟩, ⟨[], "b"⟩] := by
  constructor
  · decide
  · rintro ⟨N, h⟩
    obtain ⟨s, hs⟩ := process_delimiter_first N (driverWith (wire ["", "a", "b"])) true
      (wire ["a", "b"]) (by decide)
    rw [hs] at h
    simp [driverWith] at h

/-! ## Invariants of the driver -/

/-- A step that stops the drain watcher is a drain activation that found
nothing pending, and it starts the readiness watcher. -/
theorem step_stops_processor (N : Nat) (d d1 : zeromq_server_t) (hstep : Step N d d1)
    (hon : d.m_processor = true) (hoff : d1.m_processor = false) :
    d.m_socket.pending = false ∧ d.process N = some d1 ∧ d1.m_watcher = true := by
  cases hstep with
  | event hw =>
    by_cases hp : d.m_socket.pending = true
    · simp [zeromq_server_t.event, hp] at hoff
    · simp only [zeromq_server_t.event, hp, Bool.false_eq_true, if_false] at hoff
      rw [hon] at hoff
      exact absurd hoff (by decide)
  | process _ hstarted h =>
    by_cases hp : d.m_socket.pending = true
    · have hw := (process_pending_watchers N d d1 hp h).2
      rw [hon] at hw
      rw [hw] at hoff
      exact absurd hoff (by decide)
    · have hp0 : d.m_socket.pending = false := by simpa using hp
      have h1 := process_idle N d hp0
      rw [h] at h1
      simp only [Option.some.injEq] at h1
      subst h1
      exact ⟨hp0, h, rfl⟩
  | arrive frames =>
    simp only at hoff
    rw [hon] at hoff
    exact absurd hoff (by decide)
  | reply j chunk =>
    simp only at hoff
    rw [hon] at hoff
    exact absurd hoff (by decide)

/-- Every step keeps a watcher started. -/
theorem step_keeps_watcher (N : Nat) (d d1 : zeromq_server_t) (hstep : Step N d d1)
    (h : d.m_watcher = true ∨ d.m_processor = true) :
    d1.m_watcher = true ∨ d1.m_processor = true := by
  cases hstep with
  | event hw =>
    by_cases hp : d.m_socket.pending = true
    · right
      simp [zeromq_server_t.event, hp]
    · simp only [zeromq_server_t.event, hp, Bool.false_eq_true, if_false]
      exact h
  | process _ hstarted hpr =>
    by_cases hp : d.m_socket.pending = true
    · have hw := process_pending_watchers N d d1 hp hpr
      rw [hw.1, hw.2]
      exact h
    · have h1 := process_idle N d (by simpa using hp)
      rw [hpr] at h1
      simp only [Option.some.injEq] at h1
      subst h1
      exact Or.inl rfl
  | arrive frames => exact h
  | reply j chunk => exact h

/-- A constructed driver has both watchers started. -/
theorem create_watchers (core : core_config) (t : Transport) (engine_name method : String)
    (args : List (String × String)) (d : zeromq_server_t)
    (h : zeromq_server_t.create core t engine_name method args = .ok d) :
    d.m_watcher = true ∧ d.m_processor = true := by
  simp only [zeromq_server_t.create] at h
  cases hs : t.socket_error with
  | some x => simp [hs] at h
  | none =>
    simp only [hs] at h
    by_cases hep : (getString "endpoint" "" args).length = 0
    · simp [hep] at h
    · simp only [hep, if_false] at h
      cases hb : t.bind_error (getString "endpoint" "" args) with
      | some x => simp [hb] at h
      | none =>
        simp only [hb, Except.ok.injEq] at h
        subst h
        exact ⟨rfl, rfl⟩

theorem reachable_watcher (N : Nat) (d : zeromq_server_t) (h : Reachable N d) :
    d.m_watcher = true ∨ d.m_processor = true := by
  induction h with
  | create core t engine_name method args d hc =>
    exact Or.inl (create_watchers core t engine_name method args d hc).1
  | step d d1 _ hstep ih => exact step_keeps_watcher N d d1 hstep ih

/-- C18.  No lost wakeup: every driver state reached from a successful
construction by readiness callbacks, drain callbacks, arrivals and replies has
the readiness watcher or the drain watcher started; and a step from it that
stops a started drain watcher is a drain activation in which the socket
reported nothing pending, which starts the readiness watcher. -/
theorem C18_no_lost_wakeup (N : Nat) (d : zeromq_server_t) (h : Reachable N d) :
    (d.m_watcher = true ∨ d.m_processor = true) ∧
    (∀ d1, Step N d d1 → d.m_processor = true → d1.m_processor = false →
      d.m_socket.pending = false ∧ d.process N = some d1 ∧ d1.m_watcher = true) :=
  ⟨reachable_watcher N d h, fun d1 hstep => step_stops_processor N d d1 hstep⟩

/-- Witness of C18: a driver constructed on `tcp://*:5555`, after the message
`["a", "", "x"]` arrived and the readiness callback ran: the drain watcher is
started. -/
theorem C18_no_lost_wakeup_witness :
    ({ driverWith (wire ["a", "", "x"]) with m_watcher := true } : zeromq_server_t).event
        = driverWith (wire ["a", "", "x"]) ∧
    ((driverWith (wire ["a", "", "x"])).m_watcher = true ∨
      (driverWith (wire ["a", "", "x"])).m_processor = true) :=
  have h0 : Reachable 8 { driverWith [] with m_watcher := true } :=
    Reachable.create ⟨"core", "host"⟩ ⟨none, fun _ => none, []⟩ "app" "method"
      [("endpoint", "tcp://*:5555")] _ rfl
  have h1 : Reachable 8 { driverWith (wire ["a", "", "x"]) with m_watcher := true } :=
    Reachable.step _ _ h0 (Step.arrive _ (wire ["a", "", "x"]))
  have h2 : Reachable 8 (driverWith (wire ["a", "", "x"])) :=
    Reachable.step _ _ h1 (Step.event _ rfl)
  ⟨by decide, (C18_no_lost_wakeup 8 (driverWith (wire ["a", "", "x"])) h2).1⟩

/-- The route the route loop ends with: what it started from and then only
non-empty frames, no more of them than the counter it started with. -/
theorem recvRoute_route :
    ∀ (c : Nat) (s : Socket) (acc : route_t) (c1 : Nat) (s1 : Socket) (r : route_t),
      recvRoute c s acc = some (c1, s1, r) →
      ∃ added, r = acc ++ added ∧ (∀ x ∈ added, x ≠ "") ∧ added.length ≤ c := by
  intro c
  induction c with
  | zero =>
    intro s acc c1 s1 r h
    simp only [recvRoute, Option.some.injEq, Prod.mk.injEq] at h
    exact ⟨[], by simp [h.2.2], by simp, by simp⟩
  | succ c ih =>
    intro s acc c1 s1 r h
    obtain ⟨inbox, rcvmore, script, writes, ep, rt⟩ := s
    cases inbox with
    | nil => simp [recvRoute, Socket.recv] at h
    | cons p rest =>
      obtain ⟨f, b⟩ := p
      simp only [recvRoute, Socket.recv] at h
      by_cases hf : f.size = 0
      · simp only [hf, if_true, Option.some.injEq, Prod.mk.injEq] at h
        exact ⟨[], by simp [h.2.2], by simp, by simp⟩
      · simp only [hf, if_false] at h
        obtain ⟨added, hr, hne, hlen⟩ :=
          ih { inbox := rest, rcvmore := b, sendScript := script, writes := writes,
               endpoint := ep, route := rt } _ _ _ _ h
        refine ⟨f :: added, by simp [hr], ?_, by simp; omega⟩
        intro x hx
        rcases List.mem_cons.1 hx with hx | hx
        · subst hx
          exact fun h0 => hf ((Frame.size_eq_zero_iff x).2 h0)
        · exact hne x hx

/-- The job loop only appends jobs, all of them with the route it was given. -/
theorem dispatchFrames_jobs (route : route_t) (inbox : List (Frame × Bool)) :
    ∀ (more : Bool) (jobs : List zeromq_server_job_t) (inbox1 : List (Frame × Bool))
      (more1 : Bool) (jobs1 : List zeromq_server_job_t),
      dispatchFrames route inbox more jobs = some (inbox1, more1, jobs1) →
      ∃ added, jobs1 = jobs ++ added ∧ ∀ j ∈ added, j.m_route = route := by
  induction inbox with
  | nil =>
    intro more jobs inbox1 more1 jobs1 h
    cases more with
    | false =>
      simp only [dispatchFrames, Option.some.injEq, Prod.mk.injEq] at h
      exact ⟨[], by simp [h.2.2], by simp⟩
    | true => simp [dispatchFrames] at h
  | cons p rest ih =>
    intro more jobs inbox1 more1 jobs1 h
    cases more with
    | false =>
      simp only [dispatchFrames, Option.some.injEq, Prod.mk.injEq] at h
      exact ⟨[], by simp [h.2.2], by simp⟩
    | true =>
      obtain ⟨f, b⟩ := p
      simp only [dispatchFrames] at h
      obtain ⟨added, hj, hr⟩ := ih _ _ _ _ _ h
      refine ⟨⟨route, f⟩ :: added, by simp [hj], ?_⟩
      intro j hj1
      rcases List.mem_cons.1 hj1 with hj1 | hj1
      · subst hj1
        rfl
      · exact hr j hj1

/-- Sequential writes only add to the record of writes. -/
theorem sendAll_writes (fs : List (Frame × Bool)) :
    ∀ s : Socket, ∃ later, (sendAll fs s).2.writes = s.writes ++ later := by
  induction fs with
  | nil => intro s; exact ⟨[], by simp [sendAll]⟩
  | cons p ps ih =>
    intro s
    obtain ⟨inbox, rcvmore, script, writes, ep, rt⟩ := s
    cases script with
    | nil =>
      simp only [sendAll, Socket.send]
      obtain ⟨later, hl⟩ := ih
        { inbox := inbox, rcvmore := rcvmore, sendScript := [],
          writes := writes ++ [⟨p.1, p.2, true⟩], endpoint := ep, route := rt }
      exact ⟨⟨p.1, p.2, true⟩ :: later, by rw [hl]; simp⟩
    | cons b bs =>
      cases b with
      | false => exact ⟨[⟨p.1, p.2, false⟩], by simp [sendAll, Socket.send]⟩
      | true =>
        simp only [sendAll, Socket.send]
        obtain ⟨later, hl⟩ := ih
          { inbox := inbox, rcvmore := rcvmore, sendScript := bs,
            writes := writes ++ [⟨p.1, p.2, true⟩], endpoint := ep, route := rt }
        exact ⟨⟨p.1, p.2, true⟩ :: later, by rw [hl]; simp⟩

/-- The first of a run of sequential writes is always attempted. -/
theorem sendAll_cons_writes (p : Frame × Bool) (ps : List (Frame × Bool)) (s : Socket) :
    ∃ ok later, (sendAll (p :: ps) s).2.writes = s.writes ++ ⟨p.1, p.2, ok⟩ :: later := by
  obtain ⟨inbox, rcvmore, script, writes, ep, rt⟩ := s
  cases script with
  | nil =>
    simp only [sendAll, Socket.send]
    obtain ⟨later, hl⟩ := sendAll_writes ps
      { inbox := inbox, rcvmore := rcvmore, sendScript := [],
        writes := writes ++ [⟨p.1, p.2, true⟩], endpoint := ep, route := rt }
    exact ⟨true, later, by rw [hl]; simp⟩
  | cons b bs =>
    cases b with
    | false => exact ⟨false, [], by simp [sendAll, Socket.send]⟩
    | true =>
      simp only [sendAll, Socket.send]
      obtain ⟨later, hl⟩ := sendAll_writes ps
        { inbox := inbox, rcvmore := rcvmore, sendScript := bs,
          writes := writes ++ [⟨p.1, p.2, true⟩], endpoint := ep, route := rt }
      exact ⟨true, later, by rw [hl]; simp⟩

/-- The first write of a reply on a non-empty route is its first identity,
with `ZMQ_SNDMORE`. -/
theorem send_first_write (j : zeromq_server_job_t) (r : String) (rs : route_t)
    (hj : j.m_route = r :: rs) (c : Frame) (s : Socket) :
    ∃ ok later, (j.send c s).2.writes = s.writes ++ ⟨r, true, ok⟩ :: later := by
  rw [send_eq_sendAll, framing, hj]
  exact sendAll_cons_writes (r, true) _ s

/-- C19.  Every job is addressable: whatever is pending, the jobs a drain
step enqueues are added after those already enqueued, and each of them has a
route that is non-empty, holds only non-empty identities and has at most
`MAX_ROUTE_PARTS` entries; so the first write of every reply of such a job is
a non-empty identity frame sent with `ZMQ_SNDMORE`, ahead of the delimiter. -/
theorem C19_jobs_addressable (N : Nat) (d d1 : zeromq_server_t)
    (hstep : d.process N = some d1) :
    ∃ added, d1.enqueued = d.enqueued ++ added ∧
      ∀ j ∈ added, j.m_route ≠ [] ∧ (∀ r ∈ j.m_route, r ≠ "") ∧ j.m_route.length ≤ N ∧
        ∀ (c : Frame) (s : Socket), ∃ r ok later, r ≠ "" ∧ j.m_route.head? = some r ∧
          (j.send c s).2.writes = s.writes ++ ⟨r, true, ok⟩ :: later := by
  by_cases hp : d.m_socket.pending = true
  · simp only [zeromq_server_t.process, hp, if_true] at hstep
    cases hr : recvRoute (N % (UINT_MAX + 1)) d.m_socket [] with
    | none => simp [hr] at hstep
    | some t =>
      obtain ⟨c, s, route⟩ := t
      simp only [hr] at hstep
      by_cases hbad : (route.isEmpty || c == 0) = true
      · simp only [hbad, if_true, Option.some.injEq] at hstep
        subst hstep
        exact ⟨[], by simp, by simp⟩
      · simp only [hbad] at hstep
        cases hd : dispatch route s d.enqueued with
        | none => simp [hd] at hstep
        | some u =>
          obtain ⟨s1, jobs⟩ := u
          simp only [hd, Bool.false_eq_true, if_false, Option.some.injEq] at hstep
          subst hstep
          simp only [dispatch] at hd
          cases hf : dispatchFrames route s.inbox s.rcvmore d.enqueued with
          | none => simp [hf] at hd
          | some v =>
            obtain ⟨inbox1, more1, jobs1⟩ := v
            simp only [hf, Option.some.injEq, Prod.mk.injEq] at hd
            obtain ⟨added, hj, hroute⟩ := dispatchFrames_jobs route _ _ _ _ _ _ hf
            obtain ⟨ids, hids, hne, hlen⟩ := recvRoute_route _ _ _ _ _ _ hr
            rw [List.nil_append] at hids
            have hnonempty : route ≠ [] := by
              intro h0
              apply hbad
              simp [h0]
            refine ⟨added, by rw [← hd.2, hj], ?_⟩
            intro j hjm
            have hjr : j.m_route = route := hroute j hjm
            refine ⟨by rw [hjr]; exact hnonempty, ?_, ?_, ?_⟩
            · rw [hjr, hids]
              exact hne
            · rw [hjr, hids]
              exact le_trans hlen (Nat.mod_le _ _)
            · intro c0 s0
              cases hroute0 : route with
              | nil => exact absurd hroute0 hnonempty
              | cons r rs =>
                obtain ⟨ok, later, hw⟩ := send_first_write j r rs (by rw [hjr, hroute0]) c0 s0
                refine ⟨r, ok, later, ?_, by rw [hjr, hroute0]; rfl, hw⟩
                apply hne
                rw [← hids, hroute0]
                exact List.mem_cons_self _ _
  · have h1 := process_idle N d (by simpa using hp)
    rw [hstep] at h1
    simp only [Option.some.injEq] at h1
    subst h1
    exact ⟨[], by simp, by simp⟩

/-- Witness of C19: the drain step on `["peer", "", "x"]`. -/
theorem C19_jobs_addressable_witness :
    ∃ added, ({ driverWith [] with enqueued := [⟨["peer"], "x"⟩] } : zeromq_server_t).enqueued
        = (driverWith (wire ["peer", "", "x"])).enqueued ++ added ∧
      ∀ j ∈ added, j.m_route ≠ [] ∧ (∀ r ∈ j.m_route, r ≠ "") ∧ j.m_route.length ≤ 8 ∧
        ∀ (c : Frame) (s : Socket), ∃ r ok later, r ≠ "" ∧ j.m_route.head? = some r ∧
          (j.send c s).2.writes = s.writes ++ ⟨r, true, ok⟩ :: later :=
  C19_jobs_addressable 8 (driverWith (wire ["peer", "", "x"]))
    { driverWith [] with enqueued := [⟨["peer"], "x"⟩] } (by decide)

/-! ## The drain after a rejected request -/

/-- C7 (the code at the failing input).  A rejected request is silent but
the drain does not go on with the next message.  When the message
`R1 ++ "" :: P` is reported as corrupted (the delimiter comes first, or it is
frame number `MAX_ROUTE_PARTS`) and the well-formed message `R ++ "" :: Q`
follows it, the first step logs the line, enqueues nothing, writes nothing and
leaves both watchers as they are; the next step takes the frames `P` left of
the rejected message and the route `R` of the following message for one route
and enqueues the jobs of `Q` with the route `P ++ R`. -/
theorem C7_drain_resumes_inside_message (N : Nat) (R1 P R : route_t) (Q : List Frame)
    (rest : List (Frame × Bool)) (d : zeromq_server_t) (h0 : 0 < N) (hN : N ≤ UINT_MAX)
    (hR1 : ∀ r ∈ R1, r ≠ "") (hcase : R1 = [] ∨ R1.length + 1 = N)
    (hP : P ≠ []) (hPne : ∀ p ∈ P, p ≠ "") (hR : ∀ r ∈ R, r ≠ "")
    (hlen : P.length + R.length + 2 ≤ N) (hQ : Q ≠ [])
    (hin : d.m_socket.inbox = wire (R1 ++ "" :: P) ++ (wire (R ++ "" :: Q) ++ rest)) :
    d.process N =
      some { d with
        m_socket := { d.m_socket with
          inbox := wire P ++ (wire (R ++ "" :: Q) ++ rest), rcvmore := true },
        syslog := d.syslog ++ [d.corrupted] } ∧
    ({ d with
        m_socket := { d.m_socket with
          inbox := wire P ++ (wire (R ++ "" :: Q) ++ rest), rcvmore := true },
        syslog := d.syslog ++ [d.corrupted] } : zeromq_server_t).process N =
      some { d with
        m_socket := { d.m_socket with inbox := rest, rcvmore := false },
        syslog := d.syslog ++ [d.corrupted],
        enqueued := d.enqueued ++ Q.map (fun q => ⟨P ++ R, q⟩) } := by
  refine ⟨process_delimiter_rejected N R1 P _ d h0 hN hR1 hcase hP hin, ?_⟩
  have hw : wire (R ++ "" :: Q) = R.map (fun r => (r, true)) ++ ("", true) :: wire Q := by
    rw [wire_append R ("" :: Q) (by simp)]
    cases Q with
    | nil => exact absurd rfl hQ
    | cons q qs => rfl
  have hfs : ∀ p ∈ wire P ++ R.map (fun r => (r, true)), p.1 ≠ "" := by
    intro p hp
    rcases List.mem_append.1 hp with h | h
    · exact hPne p.1 (wire_mem_fst P p h)
    · obtain ⟨r, hr, rfl⟩ := List.mem_map.1 h
      exact hR r hr
  have hl : (wire P ++ R.map (fun r => (r, true))).length = P.length + R.length := by
    rw [List.length_append, wire_length, List.length_map]
  have hpos : 1 ≤ P.length := by
    cases P with
    | nil => exact absurd rfl hP
    | cons p ps => simp
  have hm : (wire P ++ R.map (fun r => (r, true))).map Prod.fst = P ++ R := by
    rw [List.map_append, wire_map_fst]
    simp [Function.comp_def]
  have h := process_delimited N
    { d with
      m_socket := { d.m_socket with
        inbox := wire P ++ (wire (R ++ "" :: Q) ++ rest), rcvmore := true },
      syslog := d.syslog ++ [d.corrupted] }
    (wire P ++ R.map (fun r => (r, true))) Q rest hN hfs (by omega) (by omega) hQ
    (by simp [hw])
  rw [hm] at h
  exact h

/-- Witness of C7: with `MAX_ROUTE_PARTS = 4` the message
`["a", "b", "c", "", "x"]` is rejected in silence and `"x"` stays pending; the
next step makes of `"x"` and of the following message `["d", "", "y"]` a job
with route `["x", "d"]` and request `"y"`.  With `["", "ping"]` alone pending
the step after the rejection has no result: it waits in `recv`. -/
theorem C7_drain_resumes_inside_message_witness :
    (driverWith (wire ["a", "b", "c", "", "x"] ++ wire ["d", "", "y"])).process 4 =
      some { driverWith (wire ["x"] ++ wire ["d", "", "y"]) with
        m_socket := { socketWith (wire ["x"] ++ wire ["d", "", "y"]) with rcvmore := true },
        syslog := ["driver [app:method]: got a corrupted request - no route"] } ∧
    ({ driverWith (wire ["x"] ++ wire ["d", "", "y"]) with
        m_socket := { socketWith (wire ["x"] ++ wire ["d", "", "y"]) with rcvmore := true },
        syslog := ["driver [app:method]: got a corrupted request - no route"] }
      : zeromq_server_t).process 4 =
      some { driverWith [] with
        enqueued := [⟨["x", "d"], "y"⟩],
        syslog := ["driver [app:method]: got a corrupted request - no route"] } ∧
    ((driverWith (wire ["", "ping"])).process 8).bind (zeromq_server_t.process 8) = none :=
  have h := C7_drain_resumes_inside_message 4 ["a", "b", "c"] ["x"] ["d"] ["y"] []
    (driverWith (wire ["a", "b", "c", "", "x"] ++ wire ["d", "", "y"]))
    (by decide) (by decide) (by decide) (by decide) (by decide) (by decide) (by decide)
    (by decide) (by decide) (by decide)
  ⟨h.1, h.2, by decide⟩

end Cocaine
